import Mathlib

/-!
Verification of the polymorphic resource model and path-routing layer of a
typed Jenkins REST API client.

The development shallowly embeds the resource model of `src/job.rs` and
`src/action/maven.rs`.  The path codec (the `client` module: `Name`, `Path`,
URL parsing and rendering) and the tagged-resource deserialization engine are
not part of the provided sources, only their callers are; those parts are
modelled from the specification, as indicated by doc comments starting with
"Modelled from the spec".  Rust strings are embedded as `String` (lists of
characters), machine integers as `Nat`, and fallible operations as `Except`.
-/

namespace JenkinsApi

/-! ## Name grammar: percent-style encoding of display names

Modelled from the spec: a Name has a plain flavor (URL segment equals the
display form) and an encoded flavor (URL segment is a percent-style encoded
transform of the display form).  Encoding keeps unreserved characters and
replaces every other character by a percent sign followed by six hex digits
of its code point (a fixed-width, prefix-free percent transform). -/

/-- Characters kept verbatim by the percent-style Name encoding. -/
def allowedChar (c : Char) : Bool :=
  c.isAlphanum || c = '-' || c = '_' || c = '.' || c = '~'

/-- Lower-case hex digit for a value below 16. -/
def hexDigitChar (n : Nat) : Char :=
  if n < 10 then Char.ofNat (48 + n) else Char.ofNat (87 + n)

/-- Value of a lower-case hex digit character. -/
def hexDigitVal (c : Char) : Option Nat :=
  if 48 ≤ c.toNat ∧ c.toNat ≤ 57 then some (c.toNat - 48)
  else if 97 ≤ c.toNat ∧ c.toNat ≤ 102 then some (c.toNat - 87)
  else none

/-- Six-hex-digit (big-endian) rendering of a code point. -/
def encHex6 (n : Nat) : List Char :=
  [hexDigitChar (n / 1048576 % 16), hexDigitChar (n / 65536 % 16),
   hexDigitChar (n / 4096 % 16), hexDigitChar (n / 256 % 16),
   hexDigitChar (n / 16 % 16), hexDigitChar (n % 16)]

/-- Reading six hex digits back into a code point. -/
def decHex6 (a b c d e f : Char) : Option Nat :=
  match hexDigitVal a, hexDigitVal b, hexDigitVal c,
        hexDigitVal d, hexDigitVal e, hexDigitVal f with
  | some x5, some x4, some x3, some x2, some x1, some x0 =>
      some (x5 * 1048576 + x4 * 65536 + x3 * 4096 + x2 * 256 + x1 * 16 + x0)
  | _, _, _, _, _, _ => none

/-- Modelled from the spec: percent-style encoding of a display name into a
URL segment. -/
def encodeChars : List Char → List Char
  | [] => []
  | c :: rest =>
    (if allowedChar c then [c] else '%' :: encHex6 c.toNat) ++ encodeChars rest

/-- Modelled from the spec: decoding of a URL segment back into a display
name.  Malformed percent sequences are kept verbatim. -/
def decodeChars : List Char → List Char
  | [] => []
  | c :: rest =>
    if c = '%' then
      match rest with
      | a :: b :: c2 :: d :: e :: f :: rest2 =>
        match decHex6 a b c2 d e f with
        | some n => Char.ofNat n :: decodeChars rest2
        | none => '%' :: a :: b :: c2 :: d :: e :: f :: decodeChars rest2
      | _ => '%' :: rest
    else c :: decodeChars rest

/-- String-level Name encoding. -/
def encodeName (s : String) : String := ⟨encodeChars s.data⟩

/-- String-level Name decoding. -/
def decodeName (s : String) : String := ⟨decodeChars s.data⟩

/-! ## Decimal rendering and parsing of build numbers and queue ids -/

/-- Little-endian decimal digits, with explicit fuel for structural
recursion. -/
def natDigitsAux : Nat → Nat → List Nat
  | 0, _ => []
  | fuel + 1, n => if n = 0 then [] else n % 10 :: natDigitsAux fuel (n / 10)

/-- Little-endian decimal digits of a positive number. -/
def natDigits (n : Nat) : List Nat := natDigitsAux n n

/-- Decimal rendering of a natural number. -/
def natChars (n : Nat) : List Char :=
  if n = 0 then ['0']
  else (natDigits n).reverse.map (fun d => Char.ofNat (48 + d))

/-- Decimal reading of a digit string. -/
def natOfChars (s : List Char) : Nat :=
  s.foldl (fun a c => 10 * a + (c.toNat - 48)) 0

/-- Parse a URL segment as a decimal number. -/
def parseNatSeg (s : List Char) : Option Nat :=
  if s ≠ [] ∧ s.all (fun c => c.isDigit) then some (natOfChars s) else none

/-! ## The typed Path descriptors

Modelled from the spec: `Name` is a resource identifier as it appears in a
URL segment, either plain (display form) or already URL-encoded. -/

/-- A resource name: plain display form, or already encoded URL segment. -/
inductive Name where
  | name (s : String)
  | urlEncodedName (s : String)
deriving DecidableEq, Repr

/-- Modelled from the spec: a build selector is a literal number or one of
the symbolic aliases. -/
inductive BuildNumber where
  | number (n : Nat)
  | lastBuild
  | firstBuild
  | lastStableBuild
  | lastSuccessfulBuild
  | lastFailedBuild
  | lastUnstableBuild
  | lastUnsuccessfulBuild
  | lastCompletedBuild
deriving DecidableEq, Repr

/-- Modelled from the spec: the closed set of routable resource kinds.  A
job path carries its name and a list of nested sub-job (matrix
configuration) names; the empty list models a job with no nested
configuration (Rust `configuration: None`). -/
inductive Path where
  | home
  | view (name : Name)
  | addJobToView (job_name : Name) (view_name : Name)
  | removeJobFromView (job_name : Name) (view_name : Name)
  | job (name : Name) (configuration : List Name)
  | jobEnable (name : Name)
  | jobDisable (name : Name)
  | pollSCMJob (name : Name)
  | build (job_name : Name) (configuration : List Name) (number : BuildNumber)
  | consoleText (job_name : Name) (configuration : List Name) (number : BuildNumber)
  | queue
  | queueItem (id : Nat)
  | mavenArtifactRecord (job_name : Name) (configuration : List Name) (number : BuildNumber)
deriving DecidableEq, Repr

/-! ## Rendering a Path to a URL -/

/-- URL segment of a Name: plain names are encoded, encoded names are used
verbatim. -/
def renderName : Name → List Char
  | .name s => encodeChars s.data
  | .urlEncodedName s => s.data

/-- URL segment of a build selector. -/
def renderBuildNumber : BuildNumber → List Char
  | .number n => natChars n
  | .lastBuild => "lastBuild".data
  | .firstBuild => "firstBuild".data
  | .lastStableBuild => "lastStableBuild".data
  | .lastSuccessfulBuild => "lastSuccessfulBuild".data
  | .lastFailedBuild => "lastFailedBuild".data
  | .lastUnstableBuild => "lastUnstableBuild".data
  | .lastUnsuccessfulBuild => "lastUnsuccessfulBuild".data
  | .lastCompletedBuild => "lastCompletedBuild".data

/-- Segments of the nested `job/{n}` chain after the first job name. -/
def jobSegsTail : List Name → List (List Char)
  | [] => []
  | c :: rest => "job".data :: renderName c :: jobSegsTail rest

/-- Modelled from the spec: URL segments of every Path variant, following
the URL grammar table. -/
def renderSegs : Path → List (List Char)
  | .home => [[]]
  | .view v => ["view".data, renderName v]
  | .addJobToView j v =>
      ["view".data, renderName v, "addJobToView?name=".data ++ renderName j]
  | .removeJobFromView j v =>
      ["view".data, renderName v, "removeJobFromView?name=".data ++ renderName j]
  | .job n cfg => "job".data :: renderName n :: jobSegsTail cfg
  | .jobEnable n => ["job".data, renderName n, "enable".data]
  | .jobDisable n => ["job".data, renderName n, "disable".data]
  | .pollSCMJob n => ["job".data, renderName n, "polling".data]
  | .build n cfg num =>
      "job".data :: renderName n :: (jobSegsTail cfg ++ [renderBuildNumber num])
  | .consoleText n cfg num =>
      "job".data :: renderName n ::
        (jobSegsTail cfg ++ [renderBuildNumber num, "consoleText".data])
  | .queue => ["queue".data]
  | .queueItem i => ["queue".data, "item".data, natChars i]
  | .mavenArtifactRecord n cfg num =>
      "job".data :: renderName n ::
        (jobSegsTail cfg ++ [renderBuildNumber num, "mavenArtifacts".data])

/-- Join segments with slashes. -/
def intercalateSegs : List (List Char) → List Char
  | [] => []
  | [s] => s
  | s :: t :: rest => s ++ '/' :: intercalateSegs (t :: rest)

/-- Modelled from the spec: render a Path to its URL relative to the server
base. -/
def renderPath (p : Path) : String :=
  ⟨'/' :: intercalateSegs (renderSegs p)⟩

/-! ## Parsing a URL into a Path -/

/-- Split a character list on slashes. -/
def splitOnSlash : List Char → List (List Char)
  | [] => [[]]
  | c :: rest =>
    if c = '/' then [] :: splitOnSlash rest
    else
      match splitOnSlash rest with
      | s :: ss => (c :: s) :: ss
      | [] => [[c]]

/-- Parse a URL segment as a build selector. -/
def parseBuildNumberSeg (s : List Char) : Option BuildNumber :=
  if s = "lastBuild".data then some .lastBuild
  else if s = "firstBuild".data then some .firstBuild
  else if s = "lastStableBuild".data then some .lastStableBuild
  else if s = "lastSuccessfulBuild".data then some .lastSuccessfulBuild
  else if s = "lastFailedBuild".data then some .lastFailedBuild
  else if s = "lastUnstableBuild".data then some .lastUnstableBuild
  else if s = "lastUnsuccessfulBuild".data then some .lastUnsuccessfulBuild
  else if s = "lastCompletedBuild".data then some .lastCompletedBuild
  else (parseNatSeg s).map .number

/-- Recursive descent over the `job/{n}(/job/{n})*` chain: returns the first
name, the nested configuration names, and the leftover segments. -/
def parseJobChain : List (List Char) → Option (Name × List Name × List (List Char))
  | [] => none
  | n :: rest =>
    match rest with
    | j :: rest2 =>
      if j = "job".data then
        match parseJobChain rest2 with
        | some (m, ms, leftover) => some (.urlEncodedName ⟨n⟩, m :: ms, leftover)
        | none => none
      else some (.urlEncodedName ⟨n⟩, [], rest)
    | [] => some (.urlEncodedName ⟨n⟩, [], [])

/-- Classify the segments that follow a job chain. -/
def parseJobLeft (first : Name) (cfg : List Name) : List (List Char) → Option Path
  | [] => some (.job first cfg)
  | [s] =>
    if s = "enable".data then if cfg = [] then some (.jobEnable first) else none
    else if s = "disable".data then if cfg = [] then some (.jobDisable first) else none
    else if s = "polling".data then if cfg = [] then some (.pollSCMJob first) else none
    else (parseBuildNumberSeg s).map (.build first cfg)
  | [s, t] =>
    if t = "consoleText".data then (parseBuildNumberSeg s).map (.consoleText first cfg)
    else if t = "mavenArtifacts".data then
      (parseBuildNumberSeg s).map (.mavenArtifactRecord first cfg)
    else none
  | _ :: _ :: _ :: _ => none

/-- Segments after a leading `queue` segment. -/
def parseQueueTail : List (List Char) → Option Path
  | [] => some .queue
  | [_] => none
  | [i, n] => if i = "item".data then (parseNatSeg n).map .queueItem else none
  | _ :: _ :: _ :: _ => none

/-- Segments after a leading `view` segment. -/
def parseViewTail : List (List Char) → Option Path
  | [] => none
  | [v] => some (.view (.urlEncodedName ⟨v⟩))
  | [v, a] =>
    if a.take 18 = "addJobToView?name=".data then
      some (.addJobToView (.urlEncodedName ⟨a.drop 18⟩) (.urlEncodedName ⟨v⟩))
    else if a.take 23 = "removeJobFromView?name=".data then
      some (.removeJobFromView (.urlEncodedName ⟨a.drop 23⟩) (.urlEncodedName ⟨v⟩))
    else none
  | _ :: _ :: _ :: _ => none

/-- Segments after a leading `job` segment. -/
def parseJobTail (rest : List (List Char)) : Option Path :=
  match parseJobChain rest with
  | some (first, cfg, leftover) => parseJobLeft first cfg leftover
  | none => none

/-- Modelled from the spec: classify a split URL into a Path by matching the
ordered templates of the URL grammar; unrecognized shapes yield `none`. -/
def parseSegs : List (List Char) → Option Path
  | [] => none
  | s :: rest =>
    if s = [] then
      if rest = [] then some .home else none
    else if s = "queue".data then parseQueueTail rest
    else if s = "view".data then parseViewTail rest
    else if s = "job".data then parseJobTail rest
    else none

/-- Parse a relative URL (starting with a slash). -/
def parsePathChars : List Char → Option Path
  | '/' :: rest => parseSegs (splitOnSlash rest)
  | _ => none

/-- Modelled from the spec: parse a relative URL string into a Path;
unrecognized shapes are a first-class `none` outcome. -/
def parsePath (url : String) : Option Path :=
  parsePathChars url.data

/-- Modelled from the spec: classify an absolute or relative URL against the
configured base URL. -/
def urlToPath (base url : String) : Option Path :=
  if url.data.take base.data.length = base.data then
    parsePathChars (url.data.drop base.data.length)
  else parsePathChars url.data

/-! ## Normalization and well-formedness for the round-trip law -/

/-- The Name flavor produced by the parser: the URL segment of the original
name, in encoded flavor. -/
def normName : Name → Name
  | .name s => .urlEncodedName ⟨encodeChars s.data⟩
  | .urlEncodedName s => .urlEncodedName s

/-- Replace every Name of a Path by its parser-produced flavor. -/
def normalizePath : Path → Path
  | .home => .home
  | .view v => .view (normName v)
  | .addJobToView j v => .addJobToView (normName j) (normName v)
  | .removeJobFromView j v => .removeJobFromView (normName j) (normName v)
  | .job n cfg => .job (normName n) (cfg.map normName)
  | .jobEnable n => .jobEnable (normName n)
  | .jobDisable n => .jobDisable (normName n)
  | .pollSCMJob n => .pollSCMJob (normName n)
  | .build n cfg num => .build (normName n) (cfg.map normName) num
  | .consoleText n cfg num => .consoleText (normName n) (cfg.map normName) num
  | .queue => .queue
  | .queueItem i => .queueItem i
  | .mavenArtifactRecord n cfg num =>
      .mavenArtifactRecord (normName n) (cfg.map normName) num

/-- A Name is a valid URL segment when an already-encoded name contains no
slash; plain names are always valid since encoding escapes the slash. -/
def wfName : Name → Bool
  | .name _ => true
  | .urlEncodedName s => s.data.all (fun c => !(c = '/'))

/-- All names of a Path are valid URL segments. -/
def wfPath : Path → Bool
  | .home => true
  | .view v => wfName v
  | .addJobToView j v => wfName j && wfName v
  | .removeJobFromView j v => wfName j && wfName v
  | .job n cfg => wfName n && cfg.all wfName
  | .jobEnable n => wfName n
  | .jobDisable n => wfName n
  | .pollSCMJob n => wfName n
  | .build n cfg _ => wfName n && cfg.all wfName
  | .consoleText n cfg _ => wfName n && cfg.all wfName
  | .queue => true
  | .queueItem _ => true
  | .mavenArtifactRecord n cfg _ => wfName n && cfg.all wfName

/-! ## JSON values and decoding primitives

The JSON codec itself is an external collaborator; its output is embedded as
a `Json` value tree.  Typed decoding of resource payloads is part of the
core and is modelled here. -/

/-- A JSON value, as delivered by the external JSON collaborator. -/
inductive Json where
  | null
  | bool (b : Bool)
  | num (n : Int)
  | str (s : String)
  | arr (items : List Json)
  | obj (fields : List (String × Json))

/-- Structured decode failures. -/
inductive DecodeError where
  | missingField (key : String)
  | typeMismatch (context : String)
deriving DecidableEq

/-- First binding of a key in a JSON object. -/
def lookupField : List (String × Json) → String → Option Json
  | [], _ => none
  | (k, v) :: rest, key => if k = key then some v else lookupField rest key

/-- Decode a required object field. -/
def reqField (fs : List (String × Json)) (key : String)
    (dec : Json → Except DecodeError α) : Except DecodeError α :=
  match lookupField fs key with
  | some v => dec v
  | none => .error (.missingField key)

/-- Decode an optional object field: absent or null yields `none`. -/
def optField (fs : List (String × Json)) (key : String)
    (dec : Json → Except DecodeError α) : Except DecodeError (Option α) :=
  match lookupField fs key with
  | some .null => .ok none
  | some v => (dec v).map some
  | none => .ok none

/-- Decode a JSON string. -/
def decodeString : Json → Except DecodeError String
  | .str s => .ok s
  | _ => .error (.typeMismatch "string")

/-- Decode a JSON boolean. -/
def decodeBool : Json → Except DecodeError Bool
  | .bool b => .ok b
  | _ => .error (.typeMismatch "bool")

/-- Decode a JSON number as an unsigned integer. -/
def decodeNat : Json → Except DecodeError Nat
  | .num n => if n < 0 then .error (.typeMismatch "unsigned") else .ok n.toNat
  | _ => .error (.typeMismatch "number")

/-- Decode a JSON array elementwise. -/
def decodeList (dec : Json → Except DecodeError α) : Json → Except DecodeError (List α)
  | .arr l => l.mapM dec
  | _ => .error (.typeMismatch "array")

/-- Decode a nullable value. -/
def decodeNullable (dec : Json → Except DecodeError α) :
    Json → Except DecodeError (Option α)
  | .null => .ok none
  | v => (dec v).map some

/-! ## The resource data model of `src/job.rs` and `src/action/maven.rs` -/

/-- Ball color for the status of a job (`src/job.rs`). -/
inductive BallColor where
  | blue
  | blueAnime
  | yellow
  | yellowAnime
  | red
  | redAnime
  | grey
  | greyAnime
  | disabled
  | disabledAnime
  | aborted
  | abortedAnime
  | notBuilt
  | notBuiltAnime
deriving DecidableEq, Repr

/-- `impl Default for BallColor` in `src/job.rs`. -/
def BallColor.default : BallColor := .notBuilt

/-- Decode a `BallColor` from its snake_case wire name (serde rename_all,
with the explicit notbuilt renames). -/
def decodeBallColor : Json → Except DecodeError BallColor
  | .str s =>
    if s = "blue" then .ok .blue
    else if s = "blue_anime" then .ok .blueAnime
    else if s = "yellow" then .ok .yellow
    else if s = "yellow_anime" then .ok .yellowAnime
    else if s = "red" then .ok .red
    else if s = "red_anime" then .ok .redAnime
    else if s = "grey" then .ok .grey
    else if s = "grey_anime" then .ok .greyAnime
    else if s = "disabled" then .ok .disabled
    else if s = "disabled_anime" then .ok .disabledAnime
    else if s = "aborted" then .ok .aborted
    else if s = "aborted_anime" then .ok .abortedAnime
    else if s = "notbuilt" then .ok .notBuilt
    else if s = "notbuilt_anime" then .ok .notBuiltAnime
    else .error (.typeMismatch "BallColor")
  | _ => .error (.typeMismatch "BallColor")

/-- Short Job used in lists and links (`src/job.rs`). -/
structure ShortJob where
  name : String
  url : String
  color : BallColor
deriving DecidableEq, Repr

/-- Decode a `ShortJob` (camelCase fields). -/
def decodeShortJob : Json → Except DecodeError ShortJob
  | .obj fs => do
    let name ← reqField fs "name" decodeString
    let url ← reqField fs "url" decodeString
    let color ← reqField fs "color" decodeBallColor
    pure { name := name, url := url, color := color }
  | _ => .error (.typeMismatch "ShortJob")

/-- Modelled from the spec: a short build link (terse form: URL plus a
summary field); the full `build.rs` is not among the provided sources. -/
structure ShortBuild where
  url : String
  number : Nat
deriving DecidableEq, Repr

/-- Decode a `ShortBuild`. -/
def decodeShortBuild : Json → Except DecodeError ShortBuild
  | .obj fs => do
    let url ← reqField fs "url" decodeString
    let number ← reqField fs "number" decodeNat
    pure { url := url, number := number }
  | _ => .error (.typeMismatch "ShortBuild")

/-- Modelled from the spec: a short queue item link; `queue.rs` is not among
the provided sources. -/
structure ShortQueueItem where
  url : String
deriving DecidableEq, Repr

/-- Decode a `ShortQueueItem`. -/
def decodeShortQueueItem : Json → Except DecodeError ShortQueueItem
  | .obj fs => do
    let url ← reqField fs "url" decodeString
    pure { url := url }
  | _ => .error (.typeMismatch "ShortQueueItem")

/-- Health report of a job (`src/job.rs`). -/
structure HealthReport where
  description : String
  icon_class_name : String
  icon_url : String
  score : Nat
deriving DecidableEq, Repr

/-- Decode a `HealthReport` (camelCase fields). -/
def decodeHealthReport : Json → Except DecodeError HealthReport
  | .obj fs => do
    let description ← reqField fs "description" decodeString
    let icon_class_name ← reqField fs "iconClassName" decodeString
    let icon_url ← reqField fs "iconUrl" decodeString
    let score ← reqField fs "score" decodeNat
    pure { description := description, icon_class_name := icon_class_name,
           icon_url := icon_url, score := score }
  | _ => .error (.typeMismatch "HealthReport")

/-- Modelled from the spec: the job action tagged family reduced to its
preserved discriminator; `action/mod.rs` is not among the provided
sources. -/
structure Action where
  classTag : Option String
deriving DecidableEq, Repr

/-- Decode an `Action`: any JSON object succeeds, capturing the
discriminator when it is a string. -/
def decodeAction : Json → Except DecodeError Action
  | .obj fs =>
    match lookupField fs "_class" with
    | some (.str c) => .ok { classTag := some c }
    | some _ => .error (.typeMismatch "_class")
    | none => .ok { classTag := none }
  | _ => .error (.typeMismatch "Action")

/-- A property of a job (`src/job.rs`), a tagged family with an Unknown
fallback preserving the discriminator. -/
inductive Property where
  | githubProjectProperty
  | rateLimitBranchProperty
  | buildDiscarderProperty
  | unknown (cls : Option String)
deriving DecidableEq, Repr

/-- Decode a `Property` by its discriminator. -/
def decodeProperty : Json → Except DecodeError Property
  | .obj fs =>
    match lookupField fs "_class" with
    | some (.str c) =>
      if c = "com.coravy.hudson.plugins.github.GithubProjectProperty" then
        .ok .githubProjectProperty
      else if c = "jenkins.branch.RateLimitBranchProperty$JobPropertyImpl" then
        .ok .rateLimitBranchProperty
      else if c = "jenkins.model.BuildDiscarderProperty" then
        .ok .buildDiscarderProperty
      else .ok (.unknown (some c))
    | some _ => .error (.typeMismatch "_class")
    | none => .ok (.unknown none)
  | _ => .error (.typeMismatch "Property")

/-- A browser (`src/job.rs`), a tagged family with an Unknown fallback. -/
inductive Browser where
  | githubWeb
  | unknown (cls : Option String)
deriving DecidableEq, Repr

/-- `impl Default for Browser` in `src/job.rs`. -/
def Browser.default : Browser := .unknown none

/-- Decode a `Browser` by its discriminator. -/
def decodeBrowser : Json → Except DecodeError Browser
  | .obj fs =>
    match lookupField fs "_class" with
    | some (.str c) =>
      if c = "hudson.plugins.git.browser.GithubWeb" then .ok .githubWeb
      else .ok (.unknown (some c))
    | some _ => .error (.typeMismatch "_class")
    | none => .ok (.unknown none)
  | _ => .error (.typeMismatch "Browser")

/-- SCM merge options (`src/job.rs`). -/
structure MergeOptions where
  merge_strategy : String
  fast_forward_mode : String
  merge_target : Option String
  remote_branch_name : Option String
deriving DecidableEq, Repr

/-- Decode `MergeOptions` (camelCase fields). -/
def decodeMergeOptions : Json → Except DecodeError MergeOptions
  | .obj fs => do
    let merge_strategy ← reqField fs "mergeStrategy" decodeString
    let fast_forward_mode ← reqField fs "fastForwardMode" decodeString
    let merge_target ← optField fs "mergeTarget" decodeString
    let remote_branch_name ← optField fs "remoteBranchName" decodeString
    pure { merge_strategy := merge_strategy, fast_forward_mode := fast_forward_mode,
           merge_target := merge_target, remote_branch_name := remote_branch_name }
  | _ => .error (.typeMismatch "MergeOptions")

/-- An SCM (`src/job.rs`), a tagged family with an Unknown fallback. -/
inductive SCM where
  | nullSCM (browser : Option Browser)
  | gitSCM (browser : Option Browser) (merge_options : MergeOptions)
  | unknown (cls : Option String)
deriving DecidableEq, Repr

/-- `impl Default for SCM` in `src/job.rs`. -/
def SCM.default : SCM := .nullSCM none

/-- The discriminators of the known SCM variants (`src/job.rs`). -/
def scmKnownClasses : List String :=
  ["hudson.scm.NullSCM", "hudson.plugins.git.GitSCM"]

/-- Decode an `SCM` by its discriminator; an unrecognized discriminator
yields the Unknown variant preserving it. -/
def decodeSCM : Json → Except DecodeError SCM
  | .obj fs =>
    match lookupField fs "_class" with
    | some (.str c) =>
      if c = "hudson.scm.NullSCM" then do
        let browser ← optField fs "browser" decodeBrowser
        pure (.nullSCM browser)
      else if c = "hudson.plugins.git.GitSCM" then do
        let browser ← optField fs "browser" decodeBrowser
        let merge_options ← reqField fs "mergeOptions" decodeMergeOptions
        pure (.gitSCM browser merge_options)
      else .ok (.unknown (some c))
    | some _ => .error (.typeMismatch "_class")
    | none => .ok (.unknown none)
  | _ => .error (.typeMismatch "SCM")

/-- The common field block shared by every known Job variant
(`src/job.rs`, the common_fields block of the tagged enum). -/
structure JobCommon where
  name : String
  display_name : String
  full_display_name : String
  full_name : String
  display_name_or_null : Option String
  description : String
  url : String
  color : BallColor
  buildable : Bool
  keep_dependencies : Bool
  next_build_number : Nat
  in_queue : Bool
  actions : List (Option Action)
  last_build : Option ShortBuild
  first_build : Option ShortBuild
  last_stable_build : Option ShortBuild
  last_unstable_build : Option ShortBuild
  last_successful_build : Option ShortBuild
  last_unsuccessful_build : Option ShortBuild
  last_completed_build : Option ShortBuild
  last_failed_build : Option ShortBuild
  builds : List ShortBuild
  health_report : List HealthReport
  queue_item : Option ShortQueueItem
  property : List Property
deriving DecidableEq, Repr

/-- A Jenkins Job (`src/job.rs`): seven known variants sharing the common
field block, plus the Unknown fallback preserving the discriminator. -/
inductive Job where
  | freeStyleProject (common : JobCommon) (concurrent_build : Bool) (scm : SCM)
      (upstream_projects : List ShortJob) (downstream_projects : List ShortJob)
      (label_expression : Option String)
  | workflowJob (common : JobCommon) (concurrent_build : Bool)
  | matrixProject (common : JobCommon) (concurrent_build : Bool) (scm : SCM)
      (active_configurations : List ShortJob)
      (upstream_projects : List ShortJob) (downstream_projects : List ShortJob)
      (label_expression : Option String)
  | matrixConfiguration (common : JobCommon) (concurrent_build : Bool) (scm : SCM)
      (upstream_projects : List ShortJob) (downstream_projects : List ShortJob)
      (label_expression : Option String)
  | externalJob (common : JobCommon)
  | mavenModuleSet (common : JobCommon) (concurrent_build : Bool) (scm : SCM)
      (modules : List ShortJob)
      (upstream_projects : List ShortJob) (downstream_projects : List ShortJob)
      (label_expression : Option String)
  | mavenModule (common : JobCommon) (concurrent_build : Bool) (scm : SCM)
      (upstream_projects : List ShortJob) (downstream_projects : List ShortJob)
      (label_expression : Option String)
  | unknown (cls : Option String)
deriving DecidableEq, Repr

/-- The seven known job discriminators (`src/job.rs`). -/
def jobKnownClasses : List String :=
  ["hudson.model.FreeStyleProject",
   "org.jenkinsci.plugins.workflow.job.WorkflowJob",
   "hudson.matrix.MatrixProject",
   "hudson.matrix.MatrixConfiguration",
   "hudson.model.ExternalJob",
   "hudson.maven.MavenModuleSet",
   "hudson.maven.MavenModule"]

/-- Decode the common field block (camelCase keys). -/
def decodeJobCommon (fs : List (String × Json)) : Except DecodeError JobCommon := do
  let name ← reqField fs "name" decodeString
  let display_name ← reqField fs "displayName" decodeString
  let full_display_name ← reqField fs "fullDisplayName" decodeString
  let full_name ← reqField fs "fullName" decodeString
  let display_name_or_null ← optField fs "displayNameOrNull" decodeString
  let description ← reqField fs "description" decodeString
  let url ← reqField fs "url" decodeString
  let color ← reqField fs "color" decodeBallColor
  let buildable ← reqField fs "buildable" decodeBool
  let keep_dependencies ← reqField fs "keepDependencies" decodeBool
  let next_build_number ← reqField fs "nextBuildNumber" decodeNat
  let in_queue ← reqField fs "inQueue" decodeBool
  let actions ← reqField fs "actions" (decodeList (decodeNullable decodeAction))
  let last_build ← optField fs "lastBuild" decodeShortBuild
  let first_build ← optField fs "firstBuild" decodeShortBuild
  let last_stable_build ← optField fs "lastStableBuild" decodeShortBuild
  let last_unstable_build ← optField fs "lastUnstableBuild" decodeShortBuild
  let last_successful_build ← optField fs "lastSuccessfulBuild" decodeShortBuild
  let last_unsuccessful_build ← optField fs "lastUnsuccessfulBuild" decodeShortBuild
  let last_completed_build ← optField fs "lastCompletedBuild" decodeShortBuild
  let last_failed_build ← optField fs "lastFailedBuild" decodeShortBuild
  let builds ← reqField fs "builds" (decodeList decodeShortBuild)
  let health_report ← reqField fs "healthReport" (decodeList decodeHealthReport)
  let queue_item ← optField fs "queueItem" decodeShortQueueItem
  let property ← reqField fs "property" (decodeList decodeProperty)
  pure { name := name, display_name := display_name,
         full_display_name := full_display_name, full_name := full_name,
         display_name_or_null := display_name_or_null, description := description,
         url := url, color := color, buildable := buildable,
         keep_dependencies := keep_dependencies,
         next_build_number := next_build_number, in_queue := in_queue,
         actions := actions, last_build := last_build, first_build := first_build,
         last_stable_build := last_stable_build,
         last_unstable_build := last_unstable_build,
         last_successful_build := last_successful_build,
         last_unsuccessful_build := last_unsuccessful_build,
         last_completed_build := last_completed_build,
         last_failed_build := last_failed_build, builds := builds,
         health_report := health_report, queue_item := queue_item,
         property := property }

/-- Modelled from the spec: decode a Job by its `_class` discriminator into
the matching known variant, or into the Unknown variant preserving the
discriminator (or its absence) when it is unrecognized. -/
def decodeJob : Json → Except DecodeError Job
  | .obj fs =>
    match lookupField fs "_class" with
    | some (.str c) =>
      if c = "hudson.model.FreeStyleProject" then do
        let common ← decodeJobCommon fs
        let concurrent_build ← reqField fs "concurrentBuild" decodeBool
        let scm ← reqField fs "scm" decodeSCM
        let upstream_projects ← reqField fs "upstreamProjects" (decodeList decodeShortJob)
        let downstream_projects ← reqField fs "downstreamProjects" (decodeList decodeShortJob)
        let label_expression ← optField fs "labelExpression" decodeString
        pure (.freeStyleProject common concurrent_build scm upstream_projects
          downstream_projects label_expression)
      else if c = "org.jenkinsci.plugins.workflow.job.WorkflowJob" then do
        let common ← decodeJobCommon fs
        let concurrent_build ← reqField fs "concurrentBuild" decodeBool
        pure (.workflowJob common concurrent_build)
      else if c = "hudson.matrix.MatrixProject" then do
        let common ← decodeJobCommon fs
        let concurrent_build ← reqField fs "concurrentBuild" decodeBool
        let scm ← reqField fs "scm" decodeSCM
        let active_configurations ← reqField fs "activeConfigurations" (decodeList decodeShortJob)
        let upstream_projects ← reqField fs "upstreamProjects" (decodeList decodeShortJob)
        let downstream_projects ← reqField fs "downstreamProjects" (decodeList decodeShortJob)
        let label_expression ← optField fs "labelExpression" decodeString
        pure (.matrixProject common concurrent_build scm active_configurations
          upstream_projects downstream_projects label_expression)
      else if c = "hudson.matrix.MatrixConfiguration" then do
        let common ← decodeJobCommon fs
        let concurrent_build ← reqField fs "concurrentBuild" decodeBool
        let scm ← reqField fs "scm" decodeSCM
        let upstream_projects ← reqField fs "upstreamProjects" (decodeList decodeShortJob)
        let downstream_projects ← reqField fs "downstreamProjects" (decodeList decodeShortJob)
        let label_expression ← optField fs "labelExpression" decodeString
        pure (.matrixConfiguration common concurrent_build scm upstream_projects
          downstream_projects label_expression)
      else if c = "hudson.model.ExternalJob" then do
        let common ← decodeJobCommon fs
        pure (.externalJob common)
      else if c = "hudson.maven.MavenModuleSet" then do
        let common ← decodeJobCommon fs
        let concurrent_build ← reqField fs "concurrentBuild" decodeBool
        let scm ← reqField fs "scm" decodeSCM
        let modules ← reqField fs "modules" (decodeList decodeShortJob)
        let upstream_projects ← reqField fs "upstreamProjects" (decodeList decodeShortJob)
        let downstream_projects ← reqField fs "downstreamProjects" (decodeList decodeShortJob)
        let label_expression ← optField fs "labelExpression" decodeString
        pure (.mavenModuleSet common concurrent_build scm modules
          upstream_projects downstream_projects label_expression)
      else if c = "hudson.maven.MavenModule" then do
        let common ← decodeJobCommon fs
        let concurrent_build ← reqField fs "concurrentBuild" decodeBool
        let scm ← reqField fs "scm" decodeSCM
        let upstream_projects ← reqField fs "upstreamProjects" (decodeList decodeShortJob)
        let downstream_projects ← reqField fs "downstreamProjects" (decodeList decodeShortJob)
        let label_expression ← optField fs "labelExpression" decodeString
        pure (.mavenModule common concurrent_build scm upstream_projects
          downstream_projects label_expression)
      else .ok (.unknown (some c))
    | some _ => .error (.typeMismatch "_class")
    | none => .ok (.unknown none)
  | _ => .error (.typeMismatch "Job")

/-! ## Error taxonomy and the client

Modelled from the spec: the error module (`client::error`) is not among the
provided sources; the structured conditions it carries are taken from the
specification and from the construction sites in `src/job.rs` and
`src/action/maven.rs`. -/

/-- The resource kind a URL was expected to address. -/
inductive ExpectedType where
  | job
  | mavenArtifactRecord
deriving DecidableEq, Repr

/-- The attempted operation recorded in an unsupported-variant failure. -/
inductive ErrorAction where
  | getField (field : String)
deriving DecidableEq, Repr

/-- Structured client errors (`client::Error`). -/
inductive ClientError where
  | invalidUrl (url : String) (expected : ExpectedType)
  | invalidObjectType (object_type : ExpectedType) (action : ErrorAction)
      (variant_name : String)
deriving DecidableEq, Repr

/-- Opaque transport failures from the HTTP collaborator. -/
structure TransportError where
  message : String
deriving DecidableEq, Repr

/-- The catch-all error type returned by the operations (Rust
`failure::Error`), wrapping the structured client errors and the opaque
collaborator failures. -/
inductive JError where
  | client (e : ClientError)
  | transport (e : TransportError)
  | decode (e : DecodeError)
deriving DecidableEq

/-- The Jenkins client: the immutable configuration together with the two
external collaborator calls (HTTP GET returning a parsed JSON body, and
HTTP POST). -/
structure Jenkins where
  baseUrl : String
  getJson : Path → Except TransportError Json
  postAction : Path → Except TransportError Unit

/-! ## Job field accessors (`src/job.rs`, job_common_fields_dispatch) -/

/-- Modelled from the spec: the variant name reported in errors is the
discriminator preserved by the Unknown variant. -/
def Job.variantName : Job → String
  | .freeStyleProject .. => "FreeStyleProject"
  | .workflowJob .. => "WorkflowJob"
  | .matrixProject .. => "MatrixProject"
  | .matrixConfiguration .. => "MatrixConfiguration"
  | .externalJob .. => "ExternalJob"
  | .mavenModuleSet .. => "MavenModuleSet"
  | .mavenModule .. => "MavenModule"
  | .unknown (some c) => c
  | .unknown none => "Unknown"

/-- The common field block of a known variant, `none` for Unknown. -/
def jobCommon? : Job → Option JobCommon
  | .freeStyleProject common _ _ _ _ _ => some common
  | .workflowJob common _ => some common
  | .matrixProject common _ _ _ _ _ _ => some common
  | .matrixConfiguration common _ _ _ _ _ => some common
  | .externalJob common => some common
  | .mavenModuleSet common _ _ _ _ _ _ => some common
  | .mavenModule common _ _ _ _ _ => some common
  | .unknown _ => none

/-- Is the job one of the seven known variants? -/
def jobIsKnown (j : Job) : Bool := (jobCommon? j).isSome

/-- The `url` accessor generated by job_common_fields_dispatch. -/
def Job.url : Job → Except JError String
  | .freeStyleProject common _ _ _ _ _ => .ok common.url
  | .workflowJob common _ => .ok common.url
  | .matrixProject common _ _ _ _ _ _ => .ok common.url
  | .matrixConfiguration common _ _ _ _ _ => .ok common.url
  | .externalJob common => .ok common.url
  | .mavenModuleSet common _ _ _ _ _ _ => .ok common.url
  | .mavenModule common _ _ _ _ _ => .ok common.url
  | j@(.unknown _) =>
      .error (.client (.invalidObjectType .job (.getField "url") j.variantName))

/-- The `name` accessor generated by job_common_fields_dispatch. -/
def Job.name : Job → Except JError String
  | .freeStyleProject common _ _ _ _ _ => .ok common.name
  | .workflowJob common _ => .ok common.name
  | .matrixProject common _ _ _ _ _ _ => .ok common.name
  | .matrixConfiguration common _ _ _ _ _ => .ok common.name
  | .externalJob common => .ok common.name
  | .mavenModuleSet common _ _ _ _ _ _ => .ok common.name
  | .mavenModule common _ _ _ _ _ => .ok common.name
  | j@(.unknown _) =>
      .error (.client (.invalidObjectType .job (.getField "name") j.variantName))

/-- The `buildable` accessor generated by job_common_fields_dispatch. -/
def Job.buildable : Job → Except JError Bool
  | .freeStyleProject common _ _ _ _ _ => .ok common.buildable
  | .workflowJob common _ => .ok common.buildable
  | .matrixProject common _ _ _ _ _ _ => .ok common.buildable
  | .matrixConfiguration common _ _ _ _ _ => .ok common.buildable
  | .externalJob common => .ok common.buildable
  | .mavenModuleSet common _ _ _ _ _ _ => .ok common.buildable
  | .mavenModule common _ _ _ _ _ => .ok common.buildable
  | j@(.unknown _) =>
      .error (.client (.invalidObjectType .job (.getField "buildable") j.variantName))

/-- The `last_build` accessor generated by job_common_fields_dispatch. -/
def Job.last_build : Job → Except JError (Option ShortBuild)
  | .freeStyleProject common _ _ _ _ _ => .ok common.last_build
  | .workflowJob common _ => .ok common.last_build
  | .matrixProject common _ _ _ _ _ _ => .ok common.last_build
  | .matrixConfiguration common _ _ _ _ _ => .ok common.last_build
  | .externalJob common => .ok common.last_build
  | .mavenModuleSet common _ _ _ _ _ _ => .ok common.last_build
  | .mavenModule common _ _ _ _ _ => .ok common.last_build
  | j@(.unknown _) =>
      .error (.client (.invalidObjectType .job (.getField "last_build") j.variantName))

/-- The `builds` accessor generated by job_common_fields_dispatch. -/
def Job.builds : Job → Except JError (List ShortBuild)
  | .freeStyleProject common _ _ _ _ _ => .ok common.builds
  | .workflowJob common _ => .ok common.builds
  | .matrixProject common _ _ _ _ _ _ => .ok common.builds
  | .matrixConfiguration common _ _ _ _ _ => .ok common.builds
  | .externalJob common => .ok common.builds
  | .mavenModuleSet common _ _ _ _ _ _ => .ok common.builds
  | .mavenModule common _ _ _ _ _ => .ok common.builds
  | j@(.unknown _) =>
      .error (.client (.invalidObjectType .job (.getField "builds") j.variantName))

/-- The `health_report` accessor generated by job_common_fields_dispatch. -/
def Job.health_report : Job → Except JError (List HealthReport)
  | .freeStyleProject common _ _ _ _ _ => .ok common.health_report
  | .workflowJob common _ => .ok common.health_report
  | .matrixProject common _ _ _ _ _ _ => .ok common.health_report
  | .matrixConfiguration common _ _ _ _ _ => .ok common.health_report
  | .externalJob common => .ok common.health_report
  | .mavenModuleSet common _ _ _ _ _ _ => .ok common.health_report
  | .mavenModule common _ _ _ _ _ => .ok common.health_report
  | j@(.unknown _) =>
      .error (.client (.invalidObjectType .job (.getField "health_report") j.variantName))

/-- The SCM field of the variants that carry one. -/
def jobSCM? : Job → Option SCM
  | .freeStyleProject _ _ scm _ _ _ => some scm
  | .workflowJob _ _ => none
  | .matrixProject _ _ scm _ _ _ _ => some scm
  | .matrixConfiguration _ _ scm _ _ _ => some scm
  | .externalJob _ => none
  | .mavenModuleSet _ _ scm _ _ _ _ => some scm
  | .mavenModule _ _ scm _ _ _ => some scm
  | .unknown _ => none

/-- Replace the SCM field of the variants that carry one. -/
def setJobSCM : Job → SCM → Job
  | .freeStyleProject common cb _ up down lbl, s => .freeStyleProject common cb s up down lbl
  | .matrixProject common cb _ ac up down lbl, s => .matrixProject common cb s ac up down lbl
  | .matrixConfiguration common cb _ up down lbl, s => .matrixConfiguration common cb s up down lbl
  | .mavenModuleSet common cb _ m up down lbl, s => .mavenModuleSet common cb s m up down lbl
  | .mavenModule common cb _ up down lbl, s => .mavenModule common cb s up down lbl
  | j, _ => j

/-! ## Short/full link resolution and job actions

Each operation also returns the list of collaborator requests it issued, so
that the absence of a fetch in the failure cases is part of the model. -/

/-- Is an optional path a job path? -/
def isJobPathOpt : Option Path → Bool
  | some (.job _ _) => true
  | _ => false

/-- Is an optional path a maven artifact record path? -/
def isMavenPathOpt : Option Path → Bool
  | some (.mavenArtifactRecord _ _ _) => true
  | _ => false

/-- `ShortJob::get_full_job` from `src/job.rs`: parse the short URL, reject
a non-job path with InvalidUrl before any fetch, otherwise GET and decode.
The second component lists the GET requests issued. -/
def ShortJob.get_full_job (s : ShortJob) (client : Jenkins) :
    Except JError Job × List Path :=
  match urlToPath client.baseUrl s.url with
  | some (Path.job n cfg) =>
      ((match client.getJson (Path.job n cfg) with
        | .error te => .error (.transport te)
        | .ok body => (decodeJob body).mapError .decode),
       [Path.job n cfg])
  | _ => (.error (.client (.invalidUrl s.url .job)), [])

/-- `Job::enable` from `src/job.rs`: only a top-level job path (no nested
configuration) is accepted; the POST list is the second component. -/
def Job.enable (j : Job) (client : Jenkins) : Except JError Unit × List Path :=
  match j.url with
  | .error e => (.error e, [])
  | .ok u =>
    match urlToPath client.baseUrl u with
    | some (Path.job n []) =>
        ((client.postAction (Path.jobEnable n)).mapError .transport, [Path.jobEnable n])
    | _ => (.error (.client (.invalidUrl u .job)), [])

/-- `Job::disable` from `src/job.rs`. -/
def Job.disable (j : Job) (client : Jenkins) : Except JError Unit × List Path :=
  match j.url with
  | .error e => (.error e, [])
  | .ok u =>
    match urlToPath client.baseUrl u with
    | some (Path.job n []) =>
        ((client.postAction (Path.jobDisable n)).mapError .transport, [Path.jobDisable n])
    | _ => (.error (.client (.invalidUrl u .job)), [])

/-- `Job::add_to_view` from `src/job.rs`. -/
def Job.add_to_view (j : Job) (client : Jenkins) (view_name : String) :
    Except JError Unit × List Path :=
  match j.url with
  | .error e => (.error e, [])
  | .ok u =>
    match urlToPath client.baseUrl u with
    | some (Path.job n []) =>
        ((client.postAction (Path.addJobToView n (.name view_name))).mapError .transport,
         [Path.addJobToView n (.name view_name)])
    | _ => (.error (.client (.invalidUrl u .job)), [])

/-- `Job::remove_from_view` from `src/job.rs`. -/
def Job.remove_from_view (j : Job) (client : Jenkins) (view_name : String) :
    Except JError Unit × List Path :=
  match j.url with
  | .error e => (.error e, [])
  | .ok u =>
    match urlToPath client.baseUrl u with
    | some (Path.job n []) =>
        ((client.postAction (Path.removeJobFromView n (.name view_name))).mapError .transport,
         [Path.removeJobFromView n (.name view_name)])
    | _ => (.error (.client (.invalidUrl u .job)), [])

/-- `Job::poll_scm` from `src/job.rs`. -/
def Job.poll_scm (j : Job) (client : Jenkins) : Except JError Unit × List Path :=
  match j.url with
  | .error e => (.error e, [])
  | .ok u =>
    match urlToPath client.baseUrl u with
    | some (Path.job n []) =>
        ((client.postAction (Path.pollSCMJob n)).mapError .transport, [Path.pollSCMJob n])
    | _ => (.error (.client (.invalidUrl u .job)), [])

/-! ## Maven artifact records (`src/action/maven.rs`) -/

/-- An artifact produced by a build. -/
structure Artifact where
  artifact_id : String
  canonical_name : String
  classifier : Option String
  file_name : String
  group_id : String
  md5sum : String
  artifact_type : String
  version : String
deriving DecidableEq, Repr

/-- Outcome of an operation that may abort the process instead of
returning. -/
inductive PanicOr (α : Type) where
  | panicked (msg : String)
  | value (v : α)
deriving DecidableEq, Repr

/-- Does a possibly-panicking outcome carry a value? -/
def PanicOr.isValue : PanicOr α → Bool
  | .panicked _ => false
  | .value _ => true

/-- `impl Default for Artifact` in `src/action/maven.rs`: the body is
`unimplemented!()`, an unconditional panic, embedded as `panicked`. -/
def Artifact.defaultImpl : PanicOr Artifact := .panicked "not implemented"

/-- Decode an `Artifact` (camelCase fields, with type renamed). -/
def decodeArtifact : Json → Except DecodeError Artifact
  | .obj fs => do
    let artifact_id ← reqField fs "artifactId" decodeString
    let canonical_name ← reqField fs "canonicalName" decodeString
    let classifier ← optField fs "classifier" decodeString
    let file_name ← reqField fs "fileName" decodeString
    let group_id ← reqField fs "groupId" decodeString
    let md5sum ← reqField fs "md5sum" decodeString
    let artifact_type ← reqField fs "type" decodeString
    let version ← reqField fs "version" decodeString
    pure { artifact_id := artifact_id, canonical_name := canonical_name,
           classifier := classifier, file_name := file_name, group_id := group_id,
           md5sum := md5sum, artifact_type := artifact_type, version := version }
  | _ => .error (.typeMismatch "Artifact")

/-- Short Maven artifact record (`src/action/maven.rs`). -/
structure ShortMavenArtifactRecord where
  url : String
deriving DecidableEq, Repr

/-- `impl Default for ShortMavenArtifactRecord` in `src/action/maven.rs`:
an empty-URL record. -/
def ShortMavenArtifactRecord.default : ShortMavenArtifactRecord := { url := "" }

/-- Full Maven artifact record (`src/action/maven.rs`). -/
structure MavenArtifactRecord where
  url : String
  attached_artifacts : List Artifact
  main_artifact : Artifact
  parent : ShortBuild
  pom_artifact : Artifact
deriving DecidableEq, Repr

/-- Decode a `MavenArtifactRecord` (camelCase fields). -/
def decodeMavenArtifactRecord : Json → Except DecodeError MavenArtifactRecord
  | .obj fs => do
    let url ← reqField fs "url" decodeString
    let attached_artifacts ← reqField fs "attachedArtifacts" (decodeList decodeArtifact)
    let main_artifact ← reqField fs "mainArtifact" decodeArtifact
    let parent ← reqField fs "parent" decodeShortBuild
    let pom_artifact ← reqField fs "pomArtifact" decodeArtifact
    pure { url := url, attached_artifacts := attached_artifacts,
           main_artifact := main_artifact, parent := parent,
           pom_artifact := pom_artifact }
  | _ => .error (.typeMismatch "MavenArtifactRecord")

/-- `ShortMavenArtifactRecord::get_full_artifact_record` from
`src/action/maven.rs`: parse the short URL, reject a non-record path with
InvalidUrl before any fetch, otherwise GET and decode. -/
def ShortMavenArtifactRecord.get_full_artifact_record
    (r : ShortMavenArtifactRecord) (client : Jenkins) :
    Except JError MavenArtifactRecord × List Path :=
  match urlToPath client.baseUrl r.url with
  | some (Path.mavenArtifactRecord n cfg num) =>
      ((match client.getJson (Path.mavenArtifactRecord n cfg num) with
        | .error te => .error (.transport te)
        | .ok body => (decodeMavenArtifactRecord body).mapError .decode),
       [Path.mavenArtifactRecord n cfg num])
  | _ => (.error (.client (.invalidUrl r.url .mavenArtifactRecord)), [])

/-! ## Concrete sample values used by the witnesses -/

/-- A concrete collaborator configuration used in witnesses. -/
def offlineClient : Jenkins :=
  { baseUrl := "http://h",
    getJson := fun _ => .error { message := "offline" },
    postAction := fun _ => .ok () }

/-- A concrete common field block whose URL addresses a nested matrix
configuration. -/
def sampleNestedCommon : JobCommon :=
  { name := "b", display_name := "b", full_display_name := "a » b",
    full_name := "a/b", display_name_or_null := none, description := "",
    url := "http://h/job/a/job/b", color := .blue, buildable := true,
    keep_dependencies := false, next_build_number := 2, in_queue := false,
    actions := [], last_build := none, first_build := none,
    last_stable_build := none, last_unstable_build := none,
    last_successful_build := none, last_unsuccessful_build := none,
    last_completed_build := none, last_failed_build := none, builds := [],
    health_report := [], queue_item := none, property := [] }

/-- A concrete known job addressing a nested matrix configuration. -/
def sampleNestedJob : Job := .externalJob sampleNestedCommon

/-- A concrete JSON object for an external job with every required common
field present. -/
def sampleExternalFields : List (String × Json) :=
  [("_class", .str "hudson.model.ExternalJob"),
   ("name", .str "x"), ("displayName", .str "x"),
   ("fullDisplayName", .str "x"), ("fullName", .str "x"),
   ("description", .str ""), ("url", .str "http://h/job/x"),
   ("color", .str "blue"), ("buildable", .bool true),
   ("keepDependencies", .bool false), ("nextBuildNumber", .num 2),
   ("inQueue", .bool false), ("actions", .arr []), ("builds", .arr []),
   ("healthReport", .arr []), ("property", .arr [])]

/-- The common block decoded from `sampleExternalFields`. -/
def sampleExternalCommon : JobCommon :=
  { name := "x", display_name := "x", full_display_name := "x",
    full_name := "x", display_name_or_null := none, description := "",
    url := "http://h/job/x", color := .blue, buildable := true,
    keep_dependencies := false, next_build_number := 2, in_queue := false,
    actions := [], last_build := none, first_build := none,
    last_stable_build := none, last_unstable_build := none,
    last_successful_build := none, last_unsuccessful_build := none,
    last_completed_build := none, last_failed_build := none, builds := [],
    health_report := [], queue_item := none, property := [] }

/-- A concrete JSON object for a free style project with a known SCM. -/
def sampleFreeStyleFields : List (String × Json) :=
  [("_class", .str "hudson.model.FreeStyleProject"),
   ("name", .str "x"), ("displayName", .str "x"),
   ("fullDisplayName", .str "x"), ("fullName", .str "x"),
   ("description", .str ""), ("url", .str "http://h/job/x"),
   ("color", .str "blue"), ("buildable", .bool true),
   ("keepDependencies", .bool false), ("nextBuildNumber", .num 2),
   ("inQueue", .bool false), ("actions", .arr []), ("builds", .arr []),
   ("healthReport", .arr []), ("property", .arr []),
   ("concurrentBuild", .bool false),
   ("scm", .obj [("_class", .str "hudson.scm.NullSCM")]),
   ("upstreamProjects", .arr []), ("downstreamProjects", .arr [])]

/-- The job decoded from `sampleFreeStyleFields`. -/
def sampleFreeStyleJob : Job :=
  .freeStyleProject sampleExternalCommon false (.nullSCM none) [] [] none

/-- A short job whose URL addresses the queue, not a job. -/
def queueShortJob : ShortJob :=
  { name := "q", url := "http://h/queue", color := .grey }

/-- A short artifact record whose URL addresses the queue, not a record. -/
def queueShortRecord : ShortMavenArtifactRecord := { url := "http://h/queue" }

/-- Sanity check: the sample external-job object decodes to the expected
known variant. -/
lemma decodeJob_sampleExternal :
    decodeJob (.obj sampleExternalFields) = .ok (.externalJob sampleExternalCommon) := by
  rfl

/-- Sanity check: the sample free style object decodes to the expected
known variant with a NullSCM member. -/
lemma decodeJob_sampleFreeStyle :
    decodeJob (.obj sampleFreeStyleFields) = .ok sampleFreeStyleJob := by rfl

/-- Sanity check: a nested matrix configuration URL classifies as a job
path with a nested configuration. -/
lemma urlToPath_nested_sample : urlToPath "http://h" "http://h/job/a/job/b" =
    some (.job (.urlEncodedName "a") [.urlEncodedName "b"]) := by decide

/-- Constraint on the segments that may follow a rendered job chain: none
of the grammar templates continues a chain with a literal `job` segment. -/
def leftKeyOk : List (List Char) → Bool
  | [] => true
  | s :: _ => !(s = "job".data)

/-- The URL segments of the eight symbolic build selectors. -/
def aliasSegs : List (List Char) :=
  ["lastBuild".data, "firstBuild".data, "lastStableBuild".data,
   "lastSuccessfulBuild".data, "lastFailedBuild".data, "lastUnstableBuild".data,
   "lastUnsuccessfulBuild".data, "lastCompletedBuild".data]

/-! ## Lemmas: the Name encoding round trip -/

lemma hexVal_hexChar : ∀ d, d < 16 → hexDigitVal (hexDigitChar d) = some d := by decide

lemma hexChar_ne_slash : ∀ d, d < 16 → hexDigitChar d ≠ '/' := by decide

lemma char_toNat_lt (c : Char) : c.toNat < 1114112 := by
  rcases c.valid with h | ⟨_, h2⟩
  · exact Nat.lt_trans h (by norm_num)
  · exact h2

lemma decHex6_encHex6 (n : Nat) (h : n < 16777216) :
    decHex6 (hexDigitChar (n / 1048576 % 16)) (hexDigitChar (n / 65536 % 16))
      (hexDigitChar (n / 4096 % 16)) (hexDigitChar (n / 256 % 16))
      (hexDigitChar (n / 16 % 16)) (hexDigitChar (n % 16)) = some n := by
  have h5 := hexVal_hexChar (n / 1048576 % 16) (Nat.mod_lt _ (by norm_num))
  have h4 := hexVal_hexChar (n / 65536 % 16) (Nat.mod_lt _ (by norm_num))
  have h3 := hexVal_hexChar (n / 4096 % 16) (Nat.mod_lt _ (by norm_num))
  have h2 := hexVal_hexChar (n / 256 % 16) (Nat.mod_lt _ (by norm_num))
  have h1 := hexVal_hexChar (n / 16 % 16) (Nat.mod_lt _ (by norm_num))
  have h0 := hexVal_hexChar (n % 16) (Nat.mod_lt _ (by norm_num))
  simp only [decHex6, h5, h4, h3, h2, h1, h0]
  exact congrArg some (by omega)

lemma allowed_ne_percent {c : Char} (h : allowedChar c = true) : ¬ c = '%' := by
  intro hc
  subst hc
  simp [allowedChar] at h

lemma decodeChars_cons_of_ne (c : Char) (h : ¬ c = '%') (l : List Char) :
    decodeChars (c :: l) = c :: decodeChars l := by
  rcases l with _ | ⟨a, _ | ⟨b, _ | ⟨c2, _ | ⟨d, _ | ⟨e, _ | ⟨f, rest2⟩⟩⟩⟩⟩⟩ <;>
    simp [decodeChars, if_neg h]

lemma decode_encode (l : List Char) : decodeChars (encodeChars l) = l := by
  induction l with
  | nil => rfl
  | cons c rest ih =>
    by_cases hc : allowedChar c = true
    · have h1 : encodeChars (c :: rest) = c :: encodeChars rest := by
        simp [encodeChars, if_pos hc]
      rw [h1, decodeChars_cons_of_ne c (allowed_ne_percent hc), ih]
    · have h1 : encodeChars (c :: rest) =
          '%' :: hexDigitChar (c.toNat / 1048576 % 16) ::
          hexDigitChar (c.toNat / 65536 % 16) :: hexDigitChar (c.toNat / 4096 % 16) ::
          hexDigitChar (c.toNat / 256 % 16) :: hexDigitChar (c.toNat / 16 % 16) ::
          hexDigitChar (c.toNat % 16) :: encodeChars rest := by
        simp [encodeChars, if_neg hc, encHex6]
      have h2 := decHex6_encHex6 c.toNat (Nat.lt_trans (char_toNat_lt c) (by norm_num))
      rw [h1, decodeChars]
      simp only [if_true, ite_true, eq_self_iff_true, h2, Char.ofNat_toNat, ih]

lemma allowed_ne_slash {c : Char} (h : allowedChar c = true) : ¬ c = '/' := by
  intro hc
  subst hc
  simp [allowedChar] at h

lemma encode_no_slash (l : List Char) : '/' ∉ encodeChars l := by
  induction l with
  | nil => simp [encodeChars]
  | cons c rest ih =>
    by_cases hc : allowedChar c = true
    · simp only [encodeChars, if_pos hc, List.cons_append, List.nil_append, List.mem_cons]
      rintro (h | h)
      · exact allowed_ne_slash hc h.symm
      · exact ih h
    · simp only [encodeChars, if_neg hc, encHex6, List.cons_append, List.nil_append,
        List.mem_cons]
      rintro (h | h | h | h | h | h | h | h)
      · exact absurd h.symm (by decide)
      · exact hexChar_ne_slash _ (Nat.mod_lt _ (by norm_num)) h.symm
      · exact hexChar_ne_slash _ (Nat.mod_lt _ (by norm_num)) h.symm
      · exact hexChar_ne_slash _ (Nat.mod_lt _ (by norm_num)) h.symm
      · exact hexChar_ne_slash _ (Nat.mod_lt _ (by norm_num)) h.symm
      · exact hexChar_ne_slash _ (Nat.mod_lt _ (by norm_num)) h.symm
      · exact hexChar_ne_slash _ (Nat.mod_lt _ (by norm_num)) h.symm
      · exact ih h

/-! ## Lemmas: decimal rendering round trip -/

lemma natDigitsAux_lt10 : ∀ fuel n d, d ∈ natDigitsAux fuel n → d < 10 := by
  intro fuel
  induction fuel with
  | zero => intro n d h; simp [natDigitsAux] at h
  | succ fuel ih =>
    intro n d h
    rw [natDigitsAux] at h
    by_cases hn : n = 0
    · simp [hn] at h
    · rw [if_neg hn] at h
      rcases List.mem_cons.mp h with h | h
      · subst h; exact Nat.mod_lt _ (by norm_num)
      · exact ih _ _ h

lemma natDigitsAux_ne_nil (fuel n : Nat) (hn : n ≠ 0) (hf : n ≤ fuel) :
    natDigitsAux fuel n ≠ [] := by
  cases fuel with
  | zero => omega
  | succ fuel => rw [natDigitsAux, if_neg hn]; simp

lemma foldl_digits : ∀ fuel n acc, n ≤ fuel →
    List.foldl (fun a d => 10 * a + d) acc (natDigitsAux fuel n).reverse =
      acc * 10 ^ (natDigitsAux fuel n).length + n := by
  intro fuel
  induction fuel with
  | zero => intro n acc h; interval_cases n; simp [natDigitsAux]
  | succ fuel ih =>
    intro n acc h
    by_cases hn : n = 0
    · subst hn; simp [natDigitsAux]
    · rw [natDigitsAux, if_neg hn]
      simp only [List.reverse_cons, List.foldl_append, List.foldl_cons, List.foldl_nil,
        List.length_cons]
      have hdiv : n / 10 ≤ fuel := by
        have := Nat.div_lt_self (Nat.pos_of_ne_zero hn) (by norm_num : 1 < 10)
        omega
      rw [ih (n / 10) acc hdiv]
      have hmod := Nat.div_add_mod n 10
      ring_nf
      omega

lemma char48_toNat : ∀ d, d < 10 → (Char.ofNat (48 + d)).toNat = 48 + d := by decide

lemma foldl_map_digit (l : List Nat) (h : ∀ d ∈ l, d < 10) (acc : Nat) :
    List.foldl (fun a c => 10 * a + (c.toNat - 48)) acc
      (l.map fun d => Char.ofNat (48 + d)) =
    List.foldl (fun a d => 10 * a + d) acc l := by
  induction l generalizing acc with
  | nil => rfl
  | cons d rest ih =>
    simp only [List.map_cons, List.foldl_cons]
    rw [char48_toNat d (h d (List.mem_cons_self d rest))]
    rw [ih (fun x hx => h x (List.mem_cons_of_mem d hx))]
    congr 1
    omega

lemma natOfChars_natChars (n : Nat) : natOfChars (natChars n) = n := by
  by_cases hn : n = 0
  · subst hn; decide
  · rw [natChars, if_neg hn, natOfChars]
    rw [foldl_map_digit ((natDigits n).reverse)
      (fun d hd => natDigitsAux_lt10 n n d (List.mem_reverse.mp hd)) 0]
    show List.foldl _ 0 (natDigitsAux n n).reverse = n
    rw [foldl_digits n n 0 (Nat.le_refl n)]
    simp

lemma digitChar_isDigit : ∀ d, d < 10 → (Char.ofNat (48 + d)).isDigit = true := by decide

lemma natChars_digits (n : Nat) : ∀ c ∈ natChars n, c.isDigit = true := by
  by_cases hn : n = 0
  · subst hn; decide
  · rw [natChars, if_neg hn]
    intro c hc
    rcases List.mem_map.mp hc with ⟨d, hd, rfl⟩
    exact digitChar_isDigit d (natDigitsAux_lt10 n n d (List.mem_reverse.mp hd))

lemma natChars_ne_nil (n : Nat) : natChars n ≠ [] := by
  by_cases hn : n = 0
  · subst hn; decide
  · rw [natChars, if_neg hn]
    simp only [ne_eq, List.map_eq_nil_iff, List.reverse_eq_nil_iff]
    exact natDigitsAux_ne_nil n n hn (Nat.le_refl n)

lemma digit_list_ne {l m : List Char} (hl : ∀ c ∈ l, c.isDigit = true)
    (c₀ : Char) (hm : c₀ ∈ m) (hc : c₀.isDigit = false) : l ≠ m := by
  intro h
  subst h
  rw [hl c₀ hm] at hc
  exact Bool.noConfusion hc

lemma natChars_no_slash (n : Nat) : '/' ∉ natChars n := by
  intro h
  have := natChars_digits n '/' h
  simp [Char.isDigit] at this

lemma parseNat_natChars (n : Nat) : parseNatSeg (natChars n) = some n := by
  rw [parseNatSeg, if_pos ⟨natChars_ne_nil n, List.all_eq_true.mpr (natChars_digits n)⟩]
  rw [natOfChars_natChars]

/-! ## Lemmas: build selector segments -/

lemma renderBN_ne_of (bn : BuildNumber) (m : List Char) (hal : m ∉ aliasSegs)
    (c₀ : Char) (hm : c₀ ∈ m) (hd : c₀.isDigit = false) :
    renderBuildNumber bn ≠ m := by
  cases bn
  case number n => exact digit_list_ne (natChars_digits n) c₀ hm hd
  all_goals (intro h; apply hal; rw [← h]; decide)

lemma parseBN_render (bn : BuildNumber) :
    parseBuildNumberSeg (renderBuildNumber bn) = some bn := by
  cases bn
  case number n =>
    have e1 : natChars n ≠ "lastBuild".data :=
      digit_list_ne (natChars_digits n) 'l' (by decide) (by decide)
    have e2 : natChars n ≠ "firstBuild".data :=
      digit_list_ne (natChars_digits n) 'f' (by decide) (by decide)
    have e3 : natChars n ≠ "lastStableBuild".data :=
      digit_list_ne (natChars_digits n) 'l' (by decide) (by decide)
    have e4 : natChars n ≠ "lastSuccessfulBuild".data :=
      digit_list_ne (natChars_digits n) 'l' (by decide) (by decide)
    have e5 : natChars n ≠ "lastFailedBuild".data :=
      digit_list_ne (natChars_digits n) 'l' (by decide) (by decide)
    have e6 : natChars n ≠ "lastUnstableBuild".data :=
      digit_list_ne (natChars_digits n) 'l' (by decide) (by decide)
    have e7 : natChars n ≠ "lastUnsuccessfulBuild".data :=
      digit_list_ne (natChars_digits n) 'l' (by decide) (by decide)
    have e8 : natChars n ≠ "lastCompletedBuild".data :=
      digit_list_ne (natChars_digits n) 'l' (by decide) (by decide)
    show parseBuildNumberSeg (natChars n) = some (.number n)
    rw [parseBuildNumberSeg, if_neg e1, if_neg e2, if_neg e3, if_neg e4, if_neg e5,
      if_neg e6, if_neg e7, if_neg e8, parseNat_natChars]
    rfl
  all_goals decide

lemma renderBN_no_slash (bn : BuildNumber) : '/' ∉ renderBuildNumber bn := by
  cases bn
  case number n => exact natChars_no_slash n
  all_goals decide

/-! ## Lemmas: splitting and joining URL segments -/

lemma splitOnSlash_slash (l : List Char) :
    splitOnSlash ('/' :: l) = [] :: splitOnSlash l := by
  rw [splitOnSlash, if_pos rfl]

lemma splitOnSlash_append {l l₁ : List Char} {ls : List (List Char)}
    (s : List Char) (hs : '/' ∉ s) (h : splitOnSlash l = l₁ :: ls) :
    splitOnSlash (s ++ l) = (s ++ l₁) :: ls := by
  induction s with
  | nil => simpa using h
  | cons c s ih =>
    have hc : ¬ c = '/' := fun hc => hs (hc ▸ List.mem_cons_self c s)
    rw [List.cons_append, splitOnSlash, if_neg hc,
      ih (fun hm => hs (List.mem_cons_of_mem c hm))]
    rfl

lemma split_intercalate : ∀ segs : List (List Char), segs ≠ [] →
    (∀ s ∈ segs, '/' ∉ s) → splitOnSlash (intercalateSegs segs) = segs := by
  intro segs
  induction segs with
  | nil => intro h; exact absurd rfl h
  | cons s rest ih =>
    intro _ hs
    cases rest with
    | nil =>
      have h0 : splitOnSlash ([] : List Char) = [] :: [] := rfl
      have := splitOnSlash_append s (hs s (by simp)) h0
      simpa [intercalateSegs] using this
    | cons t rest2 =>
      have hrec := ih (by simp) (fun x hx => hs x (List.mem_cons_of_mem s hx))
      have h1 : splitOnSlash ('/' :: intercalateSegs (t :: rest2)) =
          [] :: (t :: rest2) := by rw [splitOnSlash_slash, hrec]
      have := splitOnSlash_append s (hs s (by simp)) h1
      simpa [intercalateSegs] using this

/-! ## Lemmas: parsing the rendered segments -/

lemma normName_render (n : Name) : Name.urlEncodedName ⟨renderName n⟩ = normName n := by
  cases n <;> rfl

lemma renderName_no_slash (n : Name) (h : wfName n = true) : '/' ∉ renderName n := by
  cases n with
  | name s => exact encode_no_slash s.data
  | urlEncodedName s =>
    intro hm
    rw [wfName] at h
    have := List.all_eq_true.mp h '/' hm
    simp at this

lemma leftKeyOk_cons {s : List Char} {rest : List (List Char)}
    (h : s ≠ "job".data) : leftKeyOk (s :: rest) = true := by
  simp [leftKeyOk, h]

lemma parseJobChain_render (n : Name) (cfg : List Name) (leftover : List (List Char))
    (h : leftKeyOk leftover = true) :
    parseJobChain (renderName n :: (jobSegsTail cfg ++ leftover)) =
      some (normName n, cfg.map normName, leftover) := by
  induction cfg generalizing n with
  | nil =>
    cases leftover with
    | nil => simp [jobSegsTail, parseJobChain, normName_render]
    | cons s rest =>
      have hs : ¬ s = "job".data := by simpa [leftKeyOk] using h
      simp [jobSegsTail, parseJobChain, if_neg hs, normName_render]
  | cons c cfg ih =>
    simp only [jobSegsTail, List.cons_append, List.map_cons]
    rw [parseJobChain, if_pos rfl, ih c]
    rw [normName_render]

lemma parseJobTail_eq {rest : List (List Char)} {first : Name} {cfg : List Name}
    {leftover : List (List Char)}
    (h : parseJobChain rest = some (first, cfg, leftover)) :
    parseJobTail rest = parseJobLeft first cfg leftover := by
  rw [parseJobTail, h]

lemma parseSegs_queue (rest : List (List Char)) :
    parseSegs ("queue".data :: rest) = parseQueueTail rest := by
  rw [parseSegs, if_neg (by decide), if_pos rfl]

lemma parseSegs_view (rest : List (List Char)) :
    parseSegs ("view".data :: rest) = parseViewTail rest := by
  rw [parseSegs, if_neg (by decide), if_neg (by decide), if_pos rfl]

lemma parseSegs_job (rest : List (List Char)) :
    parseSegs ("job".data :: rest) = parseJobTail rest := by
  rw [parseSegs, if_neg (by decide), if_neg (by decide), if_neg (by decide), if_pos rfl]

lemma parseSegs_renderSegs (p : Path) :
    parseSegs (renderSegs p) = some (normalizePath p) := by
  cases p with
  | home => decide
  | queue => decide
  | queueItem i =>
    rw [renderSegs, parseSegs_queue, parseQueueTail, if_pos rfl, parseNat_natChars]
    rfl
  | view v =>
    rw [renderSegs, parseSegs_view, parseViewTail, normName_render]
    rfl
  | addJobToView j v =>
    rw [renderSegs, parseSegs_view, parseViewTail]
    have htake : ("addJobToView?name=".data ++ renderName j).take 18 =
        "addJobToView?name=".data := by
      conv_lhs => rw [show (18 : Nat) = ("addJobToView?name=".data).length from by decide]
      exact List.take_left _ _
    have hdrop : ("addJobToView?name=".data ++ renderName j).drop 18 = renderName j := by
      conv_lhs => rw [show (18 : Nat) = ("addJobToView?name=".data).length from by decide]
      exact List.drop_left _ _
    rw [htake, if_pos rfl, hdrop, normName_render, normName_render]
    rfl
  | removeJobFromView j v =>
    rw [renderSegs, parseSegs_view, parseViewTail]
    have hne : ("removeJobFromView?name=".data ++ renderName j).take 18 ≠
        "addJobToView?name=".data := by
      have e1 : (18 : Nat) - ("removeJobFromView?name=".data).length = 0 := by decide
      rw [List.take_append_eq_append_take, e1, List.take_zero, List.append_nil]
      decide
    have htake : ("removeJobFromView?name=".data ++ renderName j).take 23 =
        "removeJobFromView?name=".data := by
      conv_lhs => rw [show (23 : Nat) = ("removeJobFromView?name=".data).length from by decide]
      exact List.take_left _ _
    have hdrop : ("removeJobFromView?name=".data ++ renderName j).drop 23 = renderName j := by
      conv_lhs => rw [show (23 : Nat) = ("removeJobFromView?name=".data).length from by decide]
      exact List.drop_left _ _
    rw [if_neg hne, htake, if_pos rfl, hdrop, normName_render, normName_render]
    rfl
  | job n cfg =>
    rw [renderSegs, parseSegs_job]
    have hchain := parseJobChain_render n cfg [] rfl
    rw [List.append_nil] at hchain
    rw [parseJobTail_eq hchain]
    rfl
  | jobEnable n =>
    rw [renderSegs, parseSegs_job]
    have hchain := parseJobChain_render n [] ["enable".data] (by decide)
    simp only [jobSegsTail, List.nil_append, List.map_nil] at hchain
    rw [parseJobTail_eq hchain, parseJobLeft, if_pos rfl, if_pos rfl]
    rfl
  | jobDisable n =>
    rw [renderSegs, parseSegs_job]
    have hchain := parseJobChain_render n [] ["disable".data] (by decide)
    simp only [jobSegsTail, List.nil_append, List.map_nil] at hchain
    rw [parseJobTail_eq hchain, parseJobLeft, if_neg (by decide), if_pos rfl, if_pos rfl]
    rfl
  | pollSCMJob n =>
    rw [renderSegs, parseSegs_job]
    have hchain := parseJobChain_render n [] ["polling".data] (by decide)
    simp only [jobSegsTail, List.nil_append, List.map_nil] at hchain
    rw [parseJobTail_eq hchain, parseJobLeft, if_neg (by decide), if_neg (by decide), if_pos rfl,
      if_pos rfl]
    rfl
  | build n cfg num =>
    rw [renderSegs, parseSegs_job]
    have hchain := parseJobChain_render n cfg [renderBuildNumber num]
      (leftKeyOk_cons (renderBN_ne_of num "job".data (by decide) 'j' (by decide) (by decide)))
    rw [parseJobTail_eq hchain, parseJobLeft,
      if_neg (renderBN_ne_of num "enable".data (by decide) 'e' (by decide) (by decide)),
      if_neg (renderBN_ne_of num "disable".data (by decide) 'd' (by decide) (by decide)),
      if_neg (renderBN_ne_of num "polling".data (by decide) 'p' (by decide) (by decide)),
      parseBN_render]
    rfl
  | consoleText n cfg num =>
    rw [renderSegs, parseSegs_job]
    have hchain := parseJobChain_render n cfg [renderBuildNumber num, "consoleText".data]
      (leftKeyOk_cons (renderBN_ne_of num "job".data (by decide) 'j' (by decide) (by decide)))
    rw [parseJobTail_eq hchain, parseJobLeft, if_pos rfl, parseBN_render]
    rfl
  | mavenArtifactRecord n cfg num =>
    rw [renderSegs, parseSegs_job]
    have hchain := parseJobChain_render n cfg [renderBuildNumber num, "mavenArtifacts".data]
      (leftKeyOk_cons (renderBN_ne_of num "job".data (by decide) 'j' (by decide) (by decide)))
    rw [parseJobTail_eq hchain, parseJobLeft, if_neg (by decide), if_pos rfl, parseBN_render]
    rfl

lemma jobSegsTail_no_slash (cfg : List Name) (h : cfg.all wfName = true) :
    ∀ s ∈ jobSegsTail cfg, '/' ∉ s := by
  induction cfg with
  | nil => intro s hs; simp [jobSegsTail] at hs
  | cons c cfg ih =>
    intro s hs
    simp only [List.all_cons, Bool.and_eq_true] at h
    rw [jobSegsTail] at hs
    rcases List.mem_cons.mp hs with rfl | hs
    · decide
    rcases List.mem_cons.mp hs with rfl | hs
    · exact renderName_no_slash c h.1
    · exact ih h.2 s hs

lemma renderSegs_no_slash (p : Path) (h : wfPath p = true) :
    ∀ s ∈ renderSegs p, '/' ∉ s := by
  cases p with
  | home => intro s hs; simp [renderSegs] at hs; simp [hs]
  | queue => intro s hs; simp [renderSegs] at hs; subst hs; decide
  | queueItem i =>
    intro s hs
    rcases List.mem_cons.mp hs with rfl | hs
    · decide
    rcases List.mem_cons.mp hs with rfl | hs
    · decide
    rcases List.mem_cons.mp hs with rfl | hs
    · exact natChars_no_slash i
    · simp at hs
  | view v =>
    intro s hs
    rcases List.mem_cons.mp hs with rfl | hs
    · decide
    rcases List.mem_cons.mp hs with rfl | hs
    · exact renderName_no_slash v (by rw [wfPath] at h; exact h)
    · simp at hs
  | addJobToView j v =>
    rw [wfPath, Bool.and_eq_true] at h
    intro s hs
    rcases List.mem_cons.mp hs with rfl | hs
    · decide
    rcases List.mem_cons.mp hs with rfl | hs
    · exact renderName_no_slash v h.2
    rcases List.mem_cons.mp hs with rfl | hs
    · intro hmem
      rcases List.mem_append.mp hmem with hmem | hmem
      · exact absurd hmem (by decide)
      · exact renderName_no_slash j h.1 hmem
    · simp at hs
  | removeJobFromView j v =>
    rw [wfPath, Bool.and_eq_true] at h
    intro s hs
    rcases List.mem_cons.mp hs with rfl | hs
    · decide
    rcases List.mem_cons.mp hs with rfl | hs
    · exact renderName_no_slash v h.2
    rcases List.mem_cons.mp hs with rfl | hs
    · intro hmem
      rcases List.mem_append.mp hmem with hmem | hmem
      · exact absurd hmem (by decide)
      · exact renderName_no_slash j h.1 hmem
    · simp at hs
  | job n cfg =>
    rw [wfPath, Bool.and_eq_true] at h
    intro s hs
    rcases List.mem_cons.mp hs with rfl | hs
    · decide
    rcases List.mem_cons.mp hs with rfl | hs
    · exact renderName_no_slash n h.1
    · exact jobSegsTail_no_slash cfg h.2 s hs
  | jobEnable n =>
    rw [wfPath] at h
    intro s hs
    rcases List.mem_cons.mp hs with rfl | hs
    · decide
    rcases List.mem_cons.mp hs with rfl | hs
    · exact renderName_no_slash n h
    · simp at hs; subst hs; decide
  | jobDisable n =>
    rw [wfPath] at h
    intro s hs
    rcases List.mem_cons.mp hs with rfl | hs
    · decide
    rcases List.mem_cons.mp hs with rfl | hs
    · exact renderName_no_slash n h
    · simp at hs; subst hs; decide
  | pollSCMJob n =>
    rw [wfPath] at h
    intro s hs
    rcases List.mem_cons.mp hs with rfl | hs
    · decide
    rcases List.mem_cons.mp hs with rfl | hs
    · exact renderName_no_slash n h
    · simp at hs; subst hs; decide
  | build n cfg num =>
    rw [wfPath, Bool.and_eq_true] at h
    intro s hs
    rcases List.mem_cons.mp hs with rfl | hs
    · decide
    rcases List.mem_cons.mp hs with rfl | hs
    · exact renderName_no_slash n h.1
    rcases List.mem_append.mp hs with hs | hs
    · exact jobSegsTail_no_slash cfg h.2 s hs
    · simp at hs; subst hs; exact renderBN_no_slash num
  | consoleText n cfg num =>
    rw [wfPath, Bool.and_eq_true] at h
    intro s hs
    rcases List.mem_cons.mp hs with rfl | hs
    · decide
    rcases List.mem_cons.mp hs with rfl | hs
    · exact renderName_no_slash n h.1
    rcases List.mem_append.mp hs with hs | hs
    · exact jobSegsTail_no_slash cfg h.2 s hs
    rcases List.mem_cons.mp hs with rfl | hs
    · exact renderBN_no_slash num
    · simp at hs; subst hs; decide
  | mavenArtifactRecord n cfg num =>
    rw [wfPath, Bool.and_eq_true] at h
    intro s hs
    rcases List.mem_cons.mp hs with rfl | hs
    · decide
    rcases List.mem_cons.mp hs with rfl | hs
    · exact renderName_no_slash n h.1
    rcases List.mem_append.mp hs with hs | hs
    · exact jobSegsTail_no_slash cfg h.2 s hs
    rcases List.mem_cons.mp hs with rfl | hs
    · exact renderBN_no_slash num
    · simp at hs; subst hs; decide

lemma renderSegs_ne_nil (p : Path) : renderSegs p ≠ [] := by
  cases p <;> simp [renderSegs]

lemma parse_render_aux (p : Path) (h : wfPath p = true) :
    parsePath (renderPath p) = some (normalizePath p) := by
  show parsePathChars ('/' :: intercalateSegs (renderSegs p)) = some (normalizePath p)
  rw [parsePathChars]
  rw [split_intercalate (renderSegs p) (renderSegs_ne_nil p) (renderSegs_no_slash p h)]
  exact parseSegs_renderSegs p

/-! ## Lemmas: decoding -/

lemma okBind {ε α β : Type} (b : α) (f : α → Except ε β) :
    (Except.ok b >>= f) = f b := rfl

lemma pureOk {ε α : Type} (b : α) : (pure b : Except ε α) = Except.ok b := rfl

lemma bind_ok {ε α β : Type} {x : Except ε α} {f : α → Except ε β} {c : β} :
    x >>= f = Except.ok c ↔ ∃ b, x = Except.ok b ∧ f b = Except.ok c := by
  cases x with
  | error e =>
    constructor
    · intro h; exact Except.noConfusion h
    · rintro ⟨b, hb, _⟩; exact Except.noConfusion hb
  | ok b =>
    constructor
    · intro h; exact ⟨b, rfl, h⟩
    · rintro ⟨b2, hb, hf⟩
      injection hb with hb
      subst hb
      exact hf

lemma reqField_some {fs : List (String × Json)} {key : String}
    {dec : Json → Except DecodeError α} {a : α}
    (h : reqField fs key dec = Except.ok a) : (lookupField fs key).isSome = true := by
  cases hl : lookupField fs key with
  | some v => rfl
  | none =>
    rw [reqField, hl] at h
    exact Except.noConfusion h

lemma lookupField_cons_ne (k : String) (v : Json) (fs : List (String × Json))
    (key : String) (h : ¬ k = key) :
    lookupField ((k, v) :: fs) key = lookupField fs key := by
  rw [lookupField, if_neg h]

lemma reqField_cons_ne (k : String) (v : Json) (fs : List (String × Json))
    (key : String) (dec : Json → Except DecodeError α) (h : ¬ k = key) :
    reqField ((k, v) :: fs) key dec = reqField fs key dec := by
  rw [reqField, lookupField_cons_ne k v fs key h, reqField]

lemma optField_cons_ne (k : String) (v : Json) (fs : List (String × Json))
    (key : String) (dec : Json → Except DecodeError α) (h : ¬ k = key) :
    optField ((k, v) :: fs) key dec = optField fs key dec := by
  rw [optField, lookupField_cons_ne k v fs key h, optField]

lemma reqField_cons_self (k : String) (v : Json) (fs : List (String × Json))
    (dec : Json → Except DecodeError α) :
    reqField ((k, v) :: fs) k dec = dec v := by
  rw [reqField, lookupField, if_pos rfl]

lemma decodeJobCommon_scm_shadow (v : Json) (fs : List (String × Json)) :
    decodeJobCommon (("scm", v) :: fs) = decodeJobCommon fs := by
  simp only [decodeJobCommon,
    reqField_cons_ne "scm" v fs "name" decodeString (by decide),
    reqField_cons_ne "scm" v fs "displayName" decodeString (by decide),
    reqField_cons_ne "scm" v fs "fullDisplayName" decodeString (by decide),
    reqField_cons_ne "scm" v fs "fullName" decodeString (by decide),
    reqField_cons_ne "scm" v fs "description" decodeString (by decide),
    reqField_cons_ne "scm" v fs "url" decodeString (by decide),
    reqField_cons_ne "scm" v fs "color" decodeBallColor (by decide),
    reqField_cons_ne "scm" v fs "buildable" decodeBool (by decide),
    reqField_cons_ne "scm" v fs "keepDependencies" decodeBool (by decide),
    reqField_cons_ne "scm" v fs "nextBuildNumber" decodeNat (by decide),
    reqField_cons_ne "scm" v fs "inQueue" decodeBool (by decide),
    reqField_cons_ne "scm" v fs "actions" (decodeList (decodeNullable decodeAction)) (by decide),
    reqField_cons_ne "scm" v fs "builds" (decodeList decodeShortBuild) (by decide),
    reqField_cons_ne "scm" v fs "healthReport" (decodeList decodeHealthReport) (by decide),
    reqField_cons_ne "scm" v fs "property" (decodeList decodeProperty) (by decide),
    optField_cons_ne "scm" v fs "displayNameOrNull" decodeString (by decide),
    optField_cons_ne "scm" v fs "lastBuild" decodeShortBuild (by decide),
    optField_cons_ne "scm" v fs "firstBuild" decodeShortBuild (by decide),
    optField_cons_ne "scm" v fs "lastStableBuild" decodeShortBuild (by decide),
    optField_cons_ne "scm" v fs "lastUnstableBuild" decodeShortBuild (by decide),
    optField_cons_ne "scm" v fs "lastSuccessfulBuild" decodeShortBuild (by decide),
    optField_cons_ne "scm" v fs "lastUnsuccessfulBuild" decodeShortBuild (by decide),
    optField_cons_ne "scm" v fs "lastCompletedBuild" decodeShortBuild (by decide),
    optField_cons_ne "scm" v fs "lastFailedBuild" decodeShortBuild (by decide),
    optField_cons_ne "scm" v fs "queueItem" decodeShortQueueItem (by decide)]

lemma decodeSCM_unknown (sf : List (String × Json)) (c : String)
    (h1 : ¬ c = "hudson.scm.NullSCM") (h2 : ¬ c = "hudson.plugins.git.GitSCM") :
    decodeSCM (.obj (("_class", .str c) :: sf)) = .ok (.unknown (some c)) := by
  have hl : lookupField (("_class", Json.str c) :: sf) "_class" = some (.str c) := by
    rw [lookupField, if_pos rfl]
  simp only [decodeSCM, hl, if_neg h1, if_neg h2]

lemma decodeJobCommon_builds {fs : List (String × Json)} {com : JobCommon}
    (h : decodeJobCommon fs = Except.ok com) :
    (lookupField fs "builds").isSome = true := by
  rw [decodeJobCommon] at h
  obtain ⟨_, _, h⟩ := bind_ok.mp h
  obtain ⟨_, _, h⟩ := bind_ok.mp h
  obtain ⟨_, _, h⟩ := bind_ok.mp h
  obtain ⟨_, _, h⟩ := bind_ok.mp h
  obtain ⟨_, _, h⟩ := bind_ok.mp h
  obtain ⟨_, _, h⟩ := bind_ok.mp h
  obtain ⟨_, _, h⟩ := bind_ok.mp h
  obtain ⟨_, _, h⟩ := bind_ok.mp h
  obtain ⟨_, _, h⟩ := bind_ok.mp h
  obtain ⟨_, _, h⟩ := bind_ok.mp h
  obtain ⟨_, _, h⟩ := bind_ok.mp h
  obtain ⟨_, _, h⟩ := bind_ok.mp h
  obtain ⟨_, _, h⟩ := bind_ok.mp h
  obtain ⟨_, _, h⟩ := bind_ok.mp h
  obtain ⟨_, _, h⟩ := bind_ok.mp h
  obtain ⟨_, _, h⟩ := bind_ok.mp h
  obtain ⟨_, _, h⟩ := bind_ok.mp h
  obtain ⟨_, _, h⟩ := bind_ok.mp h
  obtain ⟨_, _, h⟩ := bind_ok.mp h
  obtain ⟨_, _, h⟩ := bind_ok.mp h
  obtain ⟨_, _, h⟩ := bind_ok.mp h
  obtain ⟨_, hb, h⟩ := bind_ok.mp h
  exact reqField_some hb

/-! ## The claims -/

/-- C1: decoding the job tagged-resource family is total over
discriminators: a JSON object whose `_class` string is not one of the seven
known job classes, or whose discriminator is absent, decodes successfully to
`Job.unknown`, preserving the exact discriminator string (or its absence);
it never fails merely because the discriminator is unrecognized. -/
theorem decodeJob_unknown_discriminator_total
    (fields : List (String × Json)) (c : String) :
    (lookupField fields "_class" = some (.str c) → c ∉ jobKnownClasses →
      decodeJob (.obj fields) = .ok (.unknown (some c))) ∧
    (lookupField fields "_class" = none →
      decodeJob (.obj fields) = .ok (.unknown none)) := by
  constructor
  · intro hl hc
    simp only [jobKnownClasses, List.mem_cons, List.not_mem_nil, or_false, not_or] at hc
    obtain ⟨h1, h2, h3, h4, h5, h6, h7⟩ := hc
    simp only [decodeJob, hl, if_neg h1, if_neg h2, if_neg h3, if_neg h4, if_neg h5,
      if_neg h6, if_neg h7]
  · intro hl
    simp only [decodeJob, hl]

/-- Witness for C1 at the discriminator of the spec scenario and at an
object with no discriminator at all. -/
theorem decodeJob_unknown_discriminator_total_witness :
    decodeJob (.obj [("_class", .str "plugins.acme.CustomJob"), ("name", .str "x")]) =
      .ok (.unknown (some "plugins.acme.CustomJob")) ∧
    decodeJob (.obj [("name", .str "x")]) = .ok (.unknown none) :=
  ⟨(decodeJob_unknown_discriminator_total
      [("_class", .str "plugins.acme.CustomJob"), ("name", .str "x")]
      "plugins.acme.CustomJob").1 rfl (by decide),
   (decodeJob_unknown_discriminator_total [("name", .str "x")] "").2 rfl⟩

/-- C2: every field accessor returns the common field of a known variant,
and on the Unknown variant fails with InvalidObjectType carrying the
attempted field name and the unknown variant's discriminator; an accessor
fails exactly on the Unknown variant. -/
theorem job_accessors_dispatch (j : Job) :
    (∀ com : JobCommon, jobCommon? j = some com →
      j.name = .ok com.name ∧ j.url = .ok com.url ∧
      j.buildable = .ok com.buildable ∧ j.last_build = .ok com.last_build ∧
      j.builds = .ok com.builds ∧ j.health_report = .ok com.health_report) ∧
    (∀ cls : Option String, j = .unknown cls →
      j.name = .error (.client (.invalidObjectType .job (.getField "name") j.variantName)) ∧
      j.url = .error (.client (.invalidObjectType .job (.getField "url") j.variantName)) ∧
      j.buildable =
        .error (.client (.invalidObjectType .job (.getField "buildable") j.variantName)) ∧
      j.last_build =
        .error (.client (.invalidObjectType .job (.getField "last_build") j.variantName)) ∧
      j.builds =
        .error (.client (.invalidObjectType .job (.getField "builds") j.variantName)) ∧
      j.health_report =
        .error (.client (.invalidObjectType .job (.getField "health_report") j.variantName))) ∧
    ((jobCommon? j).isSome = false ↔ ∃ cls, j = Job.unknown cls) := by
  cases j <;>
    simp [jobCommon?, Job.name, Job.url, Job.buildable, Job.last_build, Job.builds,
      Job.health_report, Job.variantName]

/-- Witness for C2: a concrete known job and a concrete unknown variant. -/
theorem job_accessors_dispatch_witness :
    sampleFreeStyleJob.name = .ok sampleExternalCommon.name ∧
    (Job.unknown (some "acme.CustomType")).buildable =
      .error (.client (.invalidObjectType .job (.getField "buildable")
        (Job.unknown (some "acme.CustomType")).variantName)) :=
  ⟨((job_accessors_dispatch sampleFreeStyleJob).1 sampleExternalCommon rfl).1,
   (((job_accessors_dispatch (.unknown (some "acme.CustomType"))).2.1
      (some "acme.CustomType") rfl).2).2.1⟩

/-- C3: resolving a short link rejects kind mismatches before any fetch:
when the short URL does not parse to the expected Path variant the resolver
returns InvalidUrl carrying the URL and the expected kind, and issues no
HTTP GET (the request list is empty). -/
theorem resolve_rejects_kind_mismatch (s : ShortJob) (r : ShortMavenArtifactRecord)
    (client : Jenkins) :
    (isJobPathOpt (urlToPath client.baseUrl s.url) = false →
      s.get_full_job client = (.error (.client (.invalidUrl s.url .job)), [])) ∧
    (isMavenPathOpt (urlToPath client.baseUrl r.url) = false →
      r.get_full_artifact_record client =
        (.error (.client (.invalidUrl r.url .mavenArtifactRecord)), [])) := by
  constructor
  · intro h
    cases hp : urlToPath client.baseUrl s.url with
    | none => rw [ShortJob.get_full_job.eq_def, hp]
    | some p =>
      rw [hp] at h
      rw [ShortJob.get_full_job.eq_def, hp]
      cases p <;> first | rfl | simp [isJobPathOpt] at h
  · intro h
    cases hp : urlToPath client.baseUrl r.url with
    | none => rw [ShortMavenArtifactRecord.get_full_artifact_record.eq_def, hp]
    | some p =>
      rw [hp] at h
      rw [ShortMavenArtifactRecord.get_full_artifact_record.eq_def, hp]
      cases p <;> first | rfl | simp [isMavenPathOpt] at h

/-- Witness for C3: short links whose URLs parse to the queue path. -/
theorem resolve_rejects_kind_mismatch_witness :
    queueShortJob.get_full_job offlineClient =
      (.error (.client (.invalidUrl "http://h/queue" .job)), []) ∧
    queueShortRecord.get_full_artifact_record offlineClient =
      (.error (.client (.invalidUrl "http://h/queue" .mavenArtifactRecord)), []) :=
  ⟨(resolve_rejects_kind_mismatch queueShortJob queueShortRecord offlineClient).1
      (by decide),
   (resolve_rejects_kind_mismatch queueShortJob queueShortRecord offlineClient).2
      (by decide)⟩

/-- C4 (counterexample): the round trip is not the exact identity on every
constructible Path: a plain-flavor Name is parsed back in URL-encoded
flavor, so for the job path of the plain name `a` the reparsed value
differs from the original. -/
theorem path_roundtrip_exact_fails :
    decide (parsePath (renderPath (Path.job (Name.name "a") [])) =
      some (Path.job (Name.name "a") [])) = false := by decide

/-- C4 (amended): for every constructible Path whose URL-encoded Name
segments contain no slash, re-parsing the rendered URL yields the same Path
up to replacing each plain Name by its URL-encoded flavor (the flavor the
parser produces), with the same URL segment. -/
theorem path_roundtrip_normalized (p : Path) (h : wfPath p = true) :
    parsePath (renderPath p) = some (normalizePath p) :=
  parse_render_aux p h

/-- Witness for C4 at the nested console path of the spec scenario. -/
theorem path_roundtrip_normalized_witness :
    wfPath (.consoleText (.urlEncodedName "a") [.urlEncodedName "b"] (.number 7)) = true ∧
    parsePath (renderPath
        (.consoleText (.urlEncodedName "a") [.urlEncodedName "b"] (.number 7))) =
      some (normalizePath
        (.consoleText (.urlEncodedName "a") [.urlEncodedName "b"] (.number 7))) :=
  ⟨by decide,
   path_roundtrip_normalized
     (.consoleText (.urlEncodedName "a") [.urlEncodedName "b"] (.number 7)) (by decide)⟩

/-- C7: name encoding is lossless and idempotent: decoding an encoded name
yields the original display name, re-encoding the decoded segment
reproduces the segment, and rendering a job Path built from a plain Name
parses back to the same name in encoded form, losing no characters. -/
theorem name_encoding_lossless (s : String) :
    decodeName (encodeName s) = s ∧
    encodeName (decodeName (encodeName s)) = encodeName s ∧
    parsePath (renderPath (.job (.name s) [])) =
      some (.job (.urlEncodedName (encodeName s)) []) := by
  refine ⟨?_, ?_, ?_⟩
  · show (⟨decodeChars (encodeChars s.data)⟩ : String) = s
    rw [decode_encode]
  · show (⟨encodeChars (⟨decodeChars (encodeChars s.data)⟩ : String).data⟩ : String) =
      encodeName s
    show (⟨encodeChars (decodeChars (encodeChars s.data))⟩ : String) = encodeName s
    rw [decode_encode]
    rfl
  · exact parse_render_aux (.job (.name s) []) rfl

/-- C10: `Artifact::default` never returns a value: its body is an
unconditional `unimplemented!()` panic, so any code path requesting a
defaulted Artifact aborts instead of producing a placeholder. -/
theorem artifact_default_never_returns : Artifact.defaultImpl.isValue = false := rfl

/-- C6: no failure is swallowed into a default value: a job decode succeeds
as a known variant only if the builds field was present in the JSON (an
empty build list is never substituted for a missing one); a kind-mismatched
artifact record resolution returns the structured InvalidUrl error rather
than a default record; and the builds accessor on an Unknown job returns
the structured error rather than an empty list. -/
theorem no_failure_swallowed_to_default :
    (∀ (fields : List (String × Json)) (v : Job),
      decodeJob (.obj fields) = .ok v → jobIsKnown v = true →
      (lookupField fields "builds").isSome = true) ∧
    (∀ (r : ShortMavenArtifactRecord) (client : Jenkins),
      isMavenPathOpt (urlToPath client.baseUrl r.url) = false →
      (r.get_full_artifact_record client).1 =
        .error (.client (.invalidUrl r.url .mavenArtifactRecord))) ∧
    (∀ cls : Option String,
      (Job.unknown cls).builds =
        .error (.client (.invalidObjectType .job (.getField "builds")
          (Job.unknown cls).variantName))) := by
  refine ⟨?_, ?_, ?_⟩
  · intro fields v hdec hknown
    cases hcl : lookupField fields "_class" with
    | none =>
      simp only [decodeJob, hcl] at hdec
      injection hdec with hdec
      subst hdec
      simp [jobIsKnown, jobCommon?] at hknown
    | some j =>
      cases j
      case str cl =>
        simp only [decodeJob, hcl] at hdec
        split_ifs at hdec
        all_goals first
          | (obtain ⟨com, hcom, _⟩ := bind_ok.mp hdec
             exact decodeJobCommon_builds hcom)
          | (injection hdec with hdec
             subst hdec
             simp [jobIsKnown, jobCommon?] at hknown)
      all_goals
        simp only [decodeJob, hcl] at hdec
        exact Except.noConfusion hdec
  · intro r client h
    cases hp : urlToPath client.baseUrl r.url with
    | none => rw [ShortMavenArtifactRecord.get_full_artifact_record.eq_def, hp]
    | some p =>
      rw [hp] at h
      rw [ShortMavenArtifactRecord.get_full_artifact_record.eq_def, hp]
      cases p <;> first | rfl | simp [isMavenPathOpt] at h
  · intro cls
    rfl

/-- Witness for C6: a complete external-job object, a queue-URL record, and
a concrete unknown variant. -/
theorem no_failure_swallowed_to_default_witness :
    (lookupField sampleExternalFields "builds").isSome = true ∧
    (queueShortRecord.get_full_artifact_record offlineClient).1 =
      .error (.client (.invalidUrl "http://h/queue" .mavenArtifactRecord)) ∧
    (Job.unknown (some "acme.T")).builds =
      .error (.client (.invalidObjectType .job (.getField "builds")
        (Job.unknown (some "acme.T")).variantName)) :=
  ⟨no_failure_swallowed_to_default.1 sampleExternalFields
      (.externalJob sampleExternalCommon) rfl rfl,
   no_failure_swallowed_to_default.2.1 queueShortRecord offlineClient (by decide),
   no_failure_swallowed_to_default.2.2 (some "acme.T")⟩

/-- C9: the job action methods succeed only on top-level jobs: when the
job URL parses to a job path with a nested configuration, enable, disable,
add_to_view, remove_from_view and poll_scm all return InvalidUrl carrying
the URL and expected kind Job and issue no POST; and a POST is issued only
when the parsed path is a job path with no nested configuration. -/
theorem job_actions_require_top_level :
    (∀ (j : Job) (client : Jenkins) (u : String) (n c : Name) (cfg : List Name)
      (view_name : String),
      j.url = .ok u →
      urlToPath client.baseUrl u = some (.job n (c :: cfg)) →
      j.enable client = (.error (.client (.invalidUrl u .job)), []) ∧
      j.disable client = (.error (.client (.invalidUrl u .job)), []) ∧
      j.add_to_view client view_name = (.error (.client (.invalidUrl u .job)), []) ∧
      j.remove_from_view client view_name = (.error (.client (.invalidUrl u .job)), []) ∧
      j.poll_scm client = (.error (.client (.invalidUrl u .job)), [])) ∧
    (∀ (j : Job) (client : Jenkins) (view_name : String),
      ((j.enable client).2 ≠ [] ∨ (j.disable client).2 ≠ [] ∨
        (j.add_to_view client view_name).2 ≠ [] ∨
        (j.remove_from_view client view_name).2 ≠ [] ∨
        (j.poll_scm client).2 ≠ []) →
      ∃ (u : String) (n : Name),
        j.url = .ok u ∧ urlToPath client.baseUrl u = some (.job n [])) := by
  constructor
  · intro j client u n c cfg view_name hju hp
    refine ⟨?_, ?_, ?_, ?_, ?_⟩ <;>
      simp only [Job.enable.eq_def, Job.disable.eq_def, Job.add_to_view.eq_def,
        Job.remove_from_view.eq_def, Job.poll_scm.eq_def, hju, hp]
  · intro j client view_name h
    cases hju : j.url with
    | error e =>
      exfalso
      rcases h with h | h | h | h | h <;> apply h <;>
        simp only [Job.enable.eq_def, Job.disable.eq_def, Job.add_to_view.eq_def,
          Job.remove_from_view.eq_def, Job.poll_scm.eq_def, hju]
    | ok u =>
      cases hp : urlToPath client.baseUrl u with
      | none =>
        exfalso
        rcases h with h | h | h | h | h <;> apply h <;>
          simp only [Job.enable.eq_def, Job.disable.eq_def, Job.add_to_view.eq_def,
            Job.remove_from_view.eq_def, Job.poll_scm.eq_def, hju, hp]
      | some p =>
        cases p
        case job n cfg =>
          cases cfg with
          | nil => exact ⟨u, n, rfl, hp⟩
          | cons c cfg =>
            exfalso
            rcases h with h | h | h | h | h <;> apply h <;>
              simp only [Job.enable.eq_def, Job.disable.eq_def, Job.add_to_view.eq_def,
                Job.remove_from_view.eq_def, Job.poll_scm.eq_def, hju, hp]
        all_goals
          exfalso
          rcases h with h | h | h | h | h <;> apply h <;>
            simp only [Job.enable.eq_def, Job.disable.eq_def, Job.add_to_view.eq_def,
              Job.remove_from_view.eq_def, Job.poll_scm.eq_def, hju, hp]

/-- C5: decoding of nested tagged resources is independent of the enclosing
resource: if a JSON object decodes to a known Job variant carrying an SCM
field, then replacing its scm member by any object whose discriminator is
not a known SCM class still decodes to the same known variant, with the scm
field set to `SCM.unknown` preserving that discriminator; the unknown SCM
neither fails the enclosing decode nor demotes the job to `Job.unknown`. -/
theorem nested_unknown_scm_independent (fields sf : List (String × Json))
    (v : Job) (s : SCM) (c : String)
    (hdec : decodeJob (.obj fields) = .ok v)
    (hscm : jobSCM? v = some s)
    (hc : c ∉ scmKnownClasses) :
    decodeJob (.obj (("scm", Json.obj (("_class", Json.str c) :: sf)) :: fields)) =
      .ok (setJobSCM v (.unknown (some c))) := by
  simp only [scmKnownClasses, List.mem_cons, List.not_mem_nil, or_false, not_or] at hc
  obtain ⟨hs1, hs2⟩ := hc
  cases hcl : lookupField fields "_class" with
  | none =>
    simp only [decodeJob, hcl] at hdec
    injection hdec with hdec
    subst hdec
    simp [jobSCM?] at hscm
  | some j =>
    cases j
    case str cl =>
      have hcl2 : lookupField
          (("scm", Json.obj (("_class", Json.str c) :: sf)) :: fields) "_class" =
          some (.str cl) := by
        rw [lookupField_cons_ne "scm" _ fields "_class" (by decide), hcl]
      simp only [decodeJob, hcl] at hdec
      simp only [decodeJob, hcl2]
      split_ifs at hdec with h1 h2 h3 h4 h5 h6 h7
      · -- FreeStyleProject
        obtain ⟨com, hcom, hdec⟩ := bind_ok.mp hdec
        obtain ⟨cb, hcb, hdec⟩ := bind_ok.mp hdec
        obtain ⟨scm0, hscm0, hdec⟩ := bind_ok.mp hdec
        obtain ⟨up, hup, hdec⟩ := bind_ok.mp hdec
        obtain ⟨down, hdown, hdec⟩ := bind_ok.mp hdec
        obtain ⟨lbl, hlbl, hdec⟩ := bind_ok.mp hdec
        rw [pureOk] at hdec
        injection hdec with hdec
        subst hdec
        rw [if_pos h1]
        rw [decodeJobCommon_scm_shadow, hcom, okBind]
        rw [reqField_cons_ne "scm" _ fields "concurrentBuild" decodeBool (by decide),
          hcb, okBind]
        rw [reqField_cons_self "scm" _ fields decodeSCM,
          decodeSCM_unknown sf c hs1 hs2, okBind]
        rw [reqField_cons_ne "scm" _ fields "upstreamProjects"
          (decodeList decodeShortJob) (by decide), hup, okBind]
        rw [reqField_cons_ne "scm" _ fields "downstreamProjects"
          (decodeList decodeShortJob) (by decide), hdown, okBind]
        rw [optField_cons_ne "scm" _ fields "labelExpression" decodeString (by decide),
          hlbl, okBind]
        rfl
      · -- WorkflowJob: carries no scm
        obtain ⟨com, hcom, hdec⟩ := bind_ok.mp hdec
        obtain ⟨cb, hcb, hdec⟩ := bind_ok.mp hdec
        rw [pureOk] at hdec
        injection hdec with hdec
        subst hdec
        simp [jobSCM?] at hscm
      · -- MatrixProject
        obtain ⟨com, hcom, hdec⟩ := bind_ok.mp hdec
        obtain ⟨cb, hcb, hdec⟩ := bind_ok.mp hdec
        obtain ⟨scm0, hscm0, hdec⟩ := bind_ok.mp hdec
        obtain ⟨ac, hac, hdec⟩ := bind_ok.mp hdec
        obtain ⟨up, hup, hdec⟩ := bind_ok.mp hdec
        obtain ⟨down, hdown, hdec⟩ := bind_ok.mp hdec
        obtain ⟨lbl, hlbl, hdec⟩ := bind_ok.mp hdec
        rw [pureOk] at hdec
        injection hdec with hdec
        subst hdec
        rw [if_neg h1, if_neg h2, if_pos h3]
        rw [decodeJobCommon_scm_shadow, hcom, okBind]
        rw [reqField_cons_ne "scm" _ fields "concurrentBuild" decodeBool (by decide),
          hcb, okBind]
        rw [reqField_cons_self "scm" _ fields decodeSCM,
          decodeSCM_unknown sf c hs1 hs2, okBind]
        rw [reqField_cons_ne "scm" _ fields "activeConfigurations"
          (decodeList decodeShortJob) (by decide), hac, okBind]
        rw [reqField_cons_ne "scm" _ fields "upstreamProjects"
          (decodeList decodeShortJob) (by decide), hup, okBind]
        rw [reqField_cons_ne "scm" _ fields "downstreamProjects"
          (decodeList decodeShortJob) (by decide), hdown, okBind]
        rw [optField_cons_ne "scm" _ fields "labelExpression" decodeString (by decide),
          hlbl, okBind]
        rfl
      · -- MatrixConfiguration
        obtain ⟨com, hcom, hdec⟩ := bind_ok.mp hdec
        obtain ⟨cb, hcb, hdec⟩ := bind_ok.mp hdec
        obtain ⟨scm0, hscm0, hdec⟩ := bind_ok.mp hdec
        obtain ⟨up, hup, hdec⟩ := bind_ok.mp hdec
        obtain ⟨down, hdown, hdec⟩ := bind_ok.mp hdec
        obtain ⟨lbl, hlbl, hdec⟩ := bind_ok.mp hdec
        rw [pureOk] at hdec
        injection hdec with hdec
        subst hdec
        rw [if_neg h1, if_neg h2, if_neg h3, if_pos h4]
        rw [decodeJobCommon_scm_shadow, hcom, okBind]
        rw [reqField_cons_ne "scm" _ fields "concurrentBuild" decodeBool (by decide),
          hcb, okBind]
        rw [reqField_cons_self "scm" _ fields decodeSCM,
          decodeSCM_unknown sf c hs1 hs2, okBind]
        rw [reqField_cons_ne "scm" _ fields "upstreamProjects"
          (decodeList decodeShortJob) (by decide), hup, okBind]
        rw [reqField_cons_ne "scm" _ fields "downstreamProjects"
          (decodeList decodeShortJob) (by decide), hdown, okBind]
        rw [optField_cons_ne "scm" _ fields "labelExpression" decodeString (by decide),
          hlbl, okBind]
        rfl
      · -- ExternalJob: carries no scm
        obtain ⟨com, hcom, hdec⟩ := bind_ok.mp hdec
        rw [pureOk] at hdec
        injection hdec with hdec
        subst hdec
        simp [jobSCM?] at hscm
      · -- MavenModuleSet
        obtain ⟨com, hcom, hdec⟩ := bind_ok.mp hdec
        obtain ⟨cb, hcb, hdec⟩ := bind_ok.mp hdec
        obtain ⟨scm0, hscm0, hdec⟩ := bind_ok.mp hdec
        obtain ⟨mo, hmo, hdec⟩ := bind_ok.mp hdec
        obtain ⟨up, hup, hdec⟩ := bind_ok.mp hdec
        obtain ⟨down, hdown, hdec⟩ := bind_ok.mp hdec
        obtain ⟨lbl, hlbl, hdec⟩ := bind_ok.mp hdec
        rw [pureOk] at hdec
        injection hdec with hdec
        subst hdec
        rw [if_neg h1, if_neg h2, if_neg h3, if_neg h4, if_neg h5, if_pos h6]
        rw [decodeJobCommon_scm_shadow, hcom, okBind]
        rw [reqField_cons_ne "scm" _ fields "concurrentBuild" decodeBool (by decide),
          hcb, okBind]
        rw [reqField_cons_self "scm" _ fields decodeSCM,
          decodeSCM_unknown sf c hs1 hs2, okBind]
        rw [reqField_cons_ne "scm" _ fields "modules"
          (decodeList decodeShortJob) (by decide), hmo, okBind]
        rw [reqField_cons_ne "scm" _ fields "upstreamProjects"
          (decodeList decodeShortJob) (by decide), hup, okBind]
        rw [reqField_cons_ne "scm" _ fields "downstreamProjects"
          (decodeList decodeShortJob) (by decide), hdown, okBind]
        rw [optField_cons_ne "scm" _ fields "labelExpression" decodeString (by decide),
          hlbl, okBind]
        rfl
      · -- MavenModule
        obtain ⟨com, hcom, hdec⟩ := bind_ok.mp hdec
        obtain ⟨cb, hcb, hdec⟩ := bind_ok.mp hdec
        obtain ⟨scm0, hscm0, hdec⟩ := bind_ok.mp hdec
        obtain ⟨up, hup, hdec⟩ := bind_ok.mp hdec
        obtain ⟨down, hdown, hdec⟩ := bind_ok.mp hdec
        obtain ⟨lbl, hlbl, hdec⟩ := bind_ok.mp hdec
        rw [pureOk] at hdec
        injection hdec with hdec
        subst hdec
        rw [if_neg h1, if_neg h2, if_neg h3, if_neg h4, if_neg h5, if_neg h6, if_pos h7]
        rw [decodeJobCommon_scm_shadow, hcom, okBind]
        rw [reqField_cons_ne "scm" _ fields "concurrentBuild" decodeBool (by decide),
          hcb, okBind]
        rw [reqField_cons_self "scm" _ fields decodeSCM,
          decodeSCM_unknown sf c hs1 hs2, okBind]
        rw [reqField_cons_ne "scm" _ fields "upstreamProjects"
          (decodeList decodeShortJob) (by decide), hup, okBind]
        rw [reqField_cons_ne "scm" _ fields "downstreamProjects"
          (decodeList decodeShortJob) (by decide), hdown, okBind]
        rw [optField_cons_ne "scm" _ fields "labelExpression" decodeString (by decide),
          hlbl, okBind]
        rfl
      · -- unrecognized discriminator: the enclosing job is Unknown
        injection hdec with hdec
        subst hdec
        simp [jobSCM?] at hscm
    all_goals
      simp only [decodeJob, hcl] at hdec
      exact Except.noConfusion hdec

/-- Witness for C5: the sample free style project with its NullSCM member
replaced by an object of an unrecognized SCM class. -/
theorem nested_unknown_scm_independent_witness :
    decodeJob (.obj (("scm", Json.obj [("_class", Json.str "acme.CustomSCM")]) ::
        sampleFreeStyleFields)) =
      .ok (setJobSCM sampleFreeStyleJob (.unknown (some "acme.CustomSCM"))) :=
  nested_unknown_scm_independent sampleFreeStyleFields [] sampleFreeStyleJob
    (.nullSCM none) "acme.CustomSCM" (by rfl) rfl (by decide)

/-- Witness for C9: a known job whose URL addresses a nested matrix
configuration is rejected by enable with no POST issued. -/
theorem job_actions_require_top_level_witness :
    sampleNestedJob.enable offlineClient =
      (.error (.client (.invalidUrl "http://h/job/a/job/b" .job)), []) ∧
    sampleNestedJob.poll_scm offlineClient =
      (.error (.client (.invalidUrl "http://h/job/a/job/b" .job)), []) :=
  ⟨(job_actions_require_top_level.1 sampleNestedJob offlineClient "http://h/job/a/job/b"
      (.urlEncodedName "a") (.urlEncodedName "b") [] "v" rfl (by decide)).1,
   (job_actions_require_top_level.1 sampleNestedJob offlineClient "http://h/job/a/job/b"
      (.urlEncodedName "a") (.urlEncodedName "b") [] "v" rfl (by decide)).2.2.2.2⟩

end JenkinsApi


